import Mathlib

/-!
# Verification of the fightfor-graphql query-construction core

Shallow embedding of the query-construction engine of the `ffgraphql`
package: the MeSH taxonomy descendant-closure computation and study search
of `TypeStudies.resolve_search`, the dynamic filter pipeline of
`TypeStudies._apply_query_filters` / `resolve_filter` / `resolve_count`,
the canonical-facility fix filter of `types/utils.py`, the by-country,
by-facility and by-descriptor aggregations of `TypeStudiesStats`, and
the requested-field projection planner of `utils.py`
(`_get_load_only_fields`, `_get_query_options`).

Python `Optional` values are modelled as `Option`, Python truthiness is
modelled explicitly (`none`, `0`, `""` and `[]` are falsy), SQL rows are
modelled as lists, and Python exceptions (`TypeError`, `AttributeError`,
`ValueError`) are modelled with `Except String`.
-/

namespace FFGraphql

/-! ## Generic helpers: Python truthiness, association lists -/

/-- Python truthiness of a list value (`[]` and `None` are falsy; the
resolvers default absent list arguments to `None`, and both behave the same
under `if xs:`). -/
def truthyL {α : Type} (l : List α) : Bool :=
  !l.isEmpty

/-- Python truthiness of an optional integer (`None` and `0` are falsy). -/
def truthyI (o : Option Int) : Bool :=
  match o with
  | none => false
  | some n => n != 0

/-- Python truthiness of an optional string (`None` and `""` are falsy). -/
def truthyS (o : Option String) : Bool :=
  match o with
  | none => false
  | some s => s != ""

/-- Test a predicate under an `Option`; `none` (SQL NULL) fails the test. -/
def optTest {α : Type} (o : Option α) (p : α → Bool) : Bool :=
  match o with
  | none => false
  | some a => p a

/-- First-occurrence association-list lookup (Python dict access). -/
def lookupList {α : Type} [DecidableEq α] {β : Type} :
    List (α × β) → α → Option β
  | [], _ => none
  | (k, v) :: rest, k' => if k = k' then some v else lookupList rest k'

/-- Python `dict.setdefault(k, dflt).append(v)`: if `k` has an entry,
append `v` to it, otherwise insert `k ↦ dflt ++ [v]`. -/
def setdefaultAppend {α : Type} [DecidableEq α] {β : Type} :
    List (α × List β) → α → List β → β → List (α × List β)
  | [], k, dflt, v => [(k, dflt ++ [v])]
  | (k', vs) :: rest, k, dflt, v =>
    if k' = k then (k', vs ++ [v]) :: rest
    else (k', vs) :: setdefaultAppend rest k dflt v

/-! ## Taxonomy store and descendant-closure computation

The MeSH reference data is the association between descriptor ids and
tree-number path strings (the `mesh.descriptors` / `mesh.tree_numbers`
link); one row per (descriptor id, tree number) pair. -/

/-- One taxonomy database: rows `(descriptor_id, tree_number)`. -/
abbrev TreeDb : Type := List (Nat × String)

/-- `query_tns` of `resolve_search`: the `(tree_number, descriptor_id)`
rows whose descriptor id is among the requested ids.  (Row order follows
the stored order; the pair is kept in `(descriptor_id, tree_number)`
orientation.) -/
def queryTns (db : TreeDb) (meshDescriptorIds : List Nat) : List (Nat × String) :=
  db.filter (fun row => meshDescriptorIds.contains row.1)

/-- All tree numbers of one descriptor, in stored order. -/
def treeNumbersOf (db : TreeDb) (d : Nat) : List String :=
  (db.filter (fun row => row.1 = d)).map (fun row => row.2)

/-- `map_descriptor_tns` of `resolve_search`: fold the `query_tns` rows
into a per-descriptor list of tree numbers via `setdefault(..., []).append`. -/
def mapDescriptorTns (db : TreeDb) (meshDescriptorIds : List Nat) :
    List (Nat × List String) :=
  (queryTns db meshDescriptorIds).foldl
    (fun acc row => setdefaultAppend acc row.1 [] row.2) []

/-- `tree_numbers_all` of `resolve_search`: every tree number of any
requested descriptor, deduplicated (`list(set(...))`). -/
def treeNumbersAll (db : TreeDb) (meshDescriptorIds : List Nat) : List String :=
  ((queryTns db meshDescriptorIds).map (fun row => row.2)).dedup

/-- Python's `str.startswith` / SQL `LIKE 'p%'`: raw string-prefix test,
computed on the character sequences so that it evaluates in the kernel. -/
def strStartsWith (s p : String) : Bool :=
  p.data.isPrefixOf s.data

/-- `query_descs` of `resolve_search`: all `(descriptor_id, tree_number)`
rows whose tree number is `LIKE 'tn%'` for some previously found tree
number `tn` — a raw string-prefix scan. -/
def queryDescs (db : TreeDb) (tna : List String) : List (Nat × String) :=
  db.filter (fun row => tna.any (fun tn => strStartsWith row.2 tn))

/-- The innermost loop of `resolve_search`'s child attribution: for the
matched row `(childId, tn)` and one root `did` with tree numbers `tns`,
perform one `setdefault(did, [did]).append(childId)` per tree number of
the root that is a raw string prefix of `tn`. -/
def attributeTns (childId : Nat) (tn : String) (did : Nat) (tns : List String)
    (acc : List (Nat × List Nat)) : List (Nat × List Nat) :=
  tns.foldl
    (fun acc3 p => if strStartsWith tn p then setdefaultAppend acc3 did [did] childId
                   else acc3) acc

/-- The middle loop: attribute the matched row `(childId, tn)` against every
root of `map_descriptor_tns`. -/
def attributeRow (childId : Nat) (tn : String) (mapTns : List (Nat × List String))
    (acc : List (Nat × List Nat)) : List (Nat × List Nat) :=
  mapTns.foldl (fun acc2 e => attributeTns childId tn e.1 e.2 acc2) acc

/-- The outer loop of the child attribution of `resolve_search`: process
every row returned by `query_descs`. -/
def buildChildren (qds : List (Nat × String)) (mapTns : List (Nat × List String)) :
    List (Nat × List Nat) :=
  qds.foldl (fun acc row => attributeRow row.1 row.2 mapTns acc) []

/-- `map_descriptor_children` of `resolve_search` (with
`do_include_children` true): the per-root closure lists, values
deduplicated at the end (`list(set(...))`). -/
def mapDescriptorChildren (db : TreeDb) (meshDescriptorIds : List Nat) :
    List (Nat × List Nat) :=
  (buildChildren (queryDescs db (treeNumbersAll db meshDescriptorIds))
      (mapDescriptorTns db meshDescriptorIds)).map
    (fun e => (e.1, e.2.dedup))

/-- Membership of descriptor `c` in the closure computed for root `r`. -/
def closureMem (db : TreeDb) (meshDescriptorIds : List Nat) (r c : Nat) : Bool :=
  match lookupList (mapDescriptorChildren db meshDescriptorIds) r with
  | none => false
  | some vs => vs.contains c

/-- Modelled from the spec: path-segment-boundary prefix matching of
tree-number paths — root path `p` matches node path `t` iff `t = p` or `t`
extends `p` at a `"."` segment boundary (spec §4.2: `"C04.588"` matches
`"C04.588.180"` but not `"C04.5880"`). -/
def segBoundaryMatch (p t : String) : Bool :=
  p = t || strStartsWith t (p ++ ".")

/-! ## Entity records

`ModelStudy`, `ModelFacilityCanonical` and `ModelEligibility` live in the
external `fform` package; the fields below are the ones this repository's
query code reads.  Nullable SQL columns are `Option`; the stored
`minimum_age` / `maximum_age` INTERVAL columns are modelled directly by
their epoch-seconds value (the `CAST`/`EXTRACT` pipeline the code applies
to them), and facility coordinates stay abstract. -/

/-- A `facilities_canonical` row. -/
structure FacilityRec where
  facility_canonical_id : Nat
  name : Option String
  country : Option String
  administrative_area_level_1 : Option String
  locality : Option String
  sublocality : Option String
  sublocality_level_1 : Option String
  neighborhood : Option String
  coordinates : Int × Int
  deriving DecidableEq, Repr

/-- An `eligibility` row: gender plus the eligible-age bounds in epoch
seconds (NULL when the study does not state a bound). -/
structure EligibilityRec where
  gender : String
  minimum_age : Option Int
  maximum_age : Option Int
  deriving DecidableEq, Repr

/-- A `studies` row together with its joined-relationship rows. -/
structure StudyRec where
  study_id : Nat
  overall_status : String
  phase : String
  study_type : String
  start_date : Option (Int × Int × Int)
  facilities_canonical : List FacilityRec
  interventions : List String
  descriptors : List Nat
  eligibility : Option EligibilityRec
  deriving DecidableEq, Repr

/-- Lexicographic comparison of `(year, month, day)` dates
(`datetime.date` ordering). -/
def dateLe (a b : Int × Int × Int) : Bool :=
  a.1 < b.1 || (a.1 = b.1 && (a.2.1 < b.2.1 || (a.2.1 = b.2.1 && a.2.2 ≤ b.2.2)))

/-- `datetime.date(y, m, d)` construction: years outside
`[datetime.MINYEAR, datetime.MAXYEAR] = [1, 9999]` raise `ValueError`. -/
def pyDate (y m d : Int) : Except String (Int × Int × Int) :=
  if 1 ≤ y && y ≤ 9999 then .ok (y, m, d)
  else .error "ValueError: year is out of range"

/-- Python `age * 31536000` where `age` is `Optional[int]`: multiplying
`None` by an integer raises `TypeError`. -/
def pyMulYearSeconds (age : Option Int) : Except String Int :=
  match age with
  | none => .error "TypeError: unsupported operand type for *: NoneType and int"
  | some n => .ok (n * 31536000)

/-- PostgreSQL `int8range(lo, hi) && int8range(lo', hi')`: the ranges are
half-open `[lo, hi)`, a NULL bound is unbounded, an empty range overlaps
nothing.  The user-side bounds are always concrete integers on the
non-raising path. -/
def int8rangeOverlap (a b : Int) (lo hi : Option Int) : Bool :=
  if b ≤ a then false
  else
    match lo, hi with
    | some l, some h => if h ≤ l then false else decide (a < h) && decide (l < b)
    | some l, none => decide (l < b)
    | none, some h => decide (a < h)
    | none, none => true

/-- The argument record of `TypeStudies._apply_query_filters` (every
argument after the query itself). -/
structure QueryFilterParams where
  study_ids : List Nat
  overall_statuses : List String
  cities : List String
  states : List String
  countries : List String
  facility_canonical_ids : List Nat
  current_location_longitude : Option Int
  current_location_latitude : Option Int
  distance_max_km : Option Int
  intervention_types : List String
  phases : List String
  study_types : List String
  gender : Option String
  year_beg : Option Int
  year_end : Option Int
  age_beg : Option Int
  age_end : Option Int
  deriving Repr

/-- `_apply_query_filters` with no argument supplied (all GraphQL
arguments absent). -/
def noFilters : QueryFilterParams :=
  ⟨[], [], [], [], [], [], none, none, none, [], [], [], none, none, none,
    none, none⟩

/-- One row of the query built by `_apply_query_filters`: the selected
study plus the facility / intervention / eligibility rows brought in by
whichever joins the parameters triggered (`none` when the join was not
applied). -/
structure QRow where
  s : StudyRec
  fac : Option FacilityRec
  iv : Option String
  el : Option EligibilityRec
  deriving DecidableEq, Repr

/-- `add_canonical_facility_fix_filter` of `types/utils.py` as a row
predicate: keep a facility iff its COALESCEd name differs from each of its
country, locality, administrative-area, sublocality, sublocality-level-1
and neighborhood fields. -/
def canonicalFacilityFixOk (f : FacilityRec) : Bool :=
  let coal : Option String → String := fun o => o.getD ""
  coal f.name != coal f.country &&
  coal f.name != coal f.locality &&
  coal f.name != coal f.administrative_area_level_1 &&
  coal f.name != coal f.sublocality &&
  coal f.name != coal f.sublocality_level_1 &&
  coal f.name != coal f.neighborhood

/-- The condition of `studies.py:379-386`: join (and fix-filter) the
canonical facilities iff a location list is non-empty or the three
geospatial parameters are all truthy. -/
def facilityJoinCond (p : QueryFilterParams) : Bool :=
  (truthyL p.cities || truthyL p.states || truthyL p.countries ||
    truthyL p.facility_canonical_ids) ||
  (truthyI p.current_location_longitude &&
    truthyI p.current_location_latitude && truthyI p.distance_max_km)

/-- The condition of `studies.py:392`: apply the city/state/country/id
filters iff any of those lists is non-empty. -/
def locationFilterCond (p : QueryFilterParams) : Bool :=
  truthyL p.cities || truthyL p.states || truthyL p.countries ||
    truthyL p.facility_canonical_ids

/-- The condition of `studies.py:414-418`: apply the geospatial distance
filter iff longitude, latitude and maximum distance are all truthy. -/
def geoFilterCond (p : QueryFilterParams) : Bool :=
  truthyI p.current_location_longitude &&
    truthyI p.current_location_latitude && truthyI p.distance_max_km

/-! ### The filter pipeline of `_apply_query_filters`, step by step

Each step mirrors one `if`-guarded block of the source, in source order.
SQL `IN` on a NULL column is never true (`optTest`). -/

/-- `studies.py:368-369`: restrict to the supplied study ids. -/
def stepStudyIds (p : QueryFilterParams) (rows : List QRow) : List QRow :=
  if truthyL p.study_ids then
    rows.filter (fun r => p.study_ids.contains r.s.study_id)
  else rows

/-- `studies.py:372-377`: overall-status allow-list. -/
def stepStatuses (p : QueryFilterParams) (rows : List QRow) : List QRow :=
  if truthyL p.overall_statuses then
    rows.filter (fun r => p.overall_statuses.contains r.s.overall_status)
  else rows

/-- `studies.py:379-388`: inner-join the canonical facilities and apply
`add_canonical_facility_fix_filter` when any location parameter or the
complete (truthy) geo triple is supplied. -/
def stepFacilityJoin (p : QueryFilterParams) (rows : List QRow) : List QRow :=
  if facilityJoinCond p then
    (rows.flatMap
        (fun r => r.s.facilities_canonical.map (fun f => { r with fac := some f }))).filter
      (fun r => optTest r.fac canonicalFacilityFixOk)
  else rows

/-- `studies.py:392-412`: the city/state/country/facility-id filters. -/
def stepLocation (p : QueryFilterParams) (rows : List QRow) : List QRow :=
  if locationFilterCond p then
    let rows :=
      if truthyL p.cities then
        rows.filter (fun r => optTest r.fac (fun f => optTest f.locality p.cities.contains))
      else rows
    let rows :=
      if truthyL p.states then
        rows.filter (fun r =>
          optTest r.fac (fun f =>
            optTest f.administrative_area_level_1 p.states.contains))
      else rows
    let rows :=
      if truthyL p.countries then
        rows.filter (fun r => optTest r.fac (fun f => optTest f.country p.countries.contains))
      else rows
    let rows :=
      if truthyL p.facility_canonical_ids then
        rows.filter (fun r =>
          optTest r.fac (fun f => p.facility_canonical_ids.contains f.facility_canonical_id))
      else rows
    rows
  else rows

/-- `studies.py:414-435`: the great-circle distance filter.
`ST_Distance_Sphere` is an external SQL function, abstracted as `distFn`
from the user point and the facility coordinates to meters. -/
def stepGeo (p : QueryFilterParams) (distFn : Int × Int → Int × Int → Int)
    (rows : List QRow) : List QRow :=
  if geoFilterCond p then
    let distanceMaxM := p.distance_max_km.getD 0 * 1000
    let point := (p.current_location_longitude.getD 0, p.current_location_latitude.getD 0)
    rows.filter (fun r => optTest r.fac (fun f => distFn point f.coordinates ≤ distanceMaxM))
  else rows

/-- `studies.py:439-447`: inner-join the interventions and filter by
intervention type. -/
def stepInterventions (p : QueryFilterParams) (rows : List QRow) : List QRow :=
  if truthyL p.intervention_types then
    (rows.flatMap (fun r => r.s.interventions.map (fun i => { r with iv := some i }))).filter
      (fun r => optTest r.iv p.intervention_types.contains)
  else rows

/-- `studies.py:450-455`: trial-phase allow-list. -/
def stepPhases (p : QueryFilterParams) (rows : List QRow) : List QRow :=
  if truthyL p.phases then rows.filter (fun r => p.phases.contains r.s.phase)
  else rows

/-- `studies.py:458-463`: study-type allow-list. -/
def stepStudyTypes (p : QueryFilterParams) (rows : List QRow) : List QRow :=
  if truthyL p.study_types then rows.filter (fun r => p.study_types.contains r.s.study_type)
  else rows

/-- `studies.py:467-468`: inner-join the eligibility row when the gender
or an age bound is truthy (a study without one is dropped). -/
def stepEligibilityJoin (p : QueryFilterParams) (rows : List QRow) : List QRow :=
  if truthyS p.gender || truthyI p.age_beg || truthyI p.age_end then
    rows.flatMap (fun r =>
      match r.s.eligibility with
      | some e => [{ r with el := some e }]
      | none => [])
  else rows

/-- `studies.py:471-483`: the gender filter (`ALL` matches only `ALL`;
`FEMALE`/`MALE` match themselves or `ALL`; other enum spellings fall
through with no filter). -/
def stepGender (p : QueryFilterParams) (rows : List QRow) : List QRow :=
  match p.gender with
  | none => rows
  | some g =>
    if g = "" then rows
    else if g = "ALL" then
      rows.filter (fun r => optTest r.el (fun e => e.gender = "ALL"))
    else if g = "FEMALE" || g = "MALE" then
      rows.filter (fun r => optTest r.el (fun e => e.gender = "ALL" || e.gender = g))
    else rows

/-- The `if year_beg:` block shared by `_apply_query_filters` and
`resolve_search`: keep rows with `start_date >= date(year_beg, 1, 1)` (a
NULL start date never satisfies the comparison; `datetime.date` can
raise). -/
def yearBegFilter {ρ : Type} (startDate : ρ → Option (Int × Int × Int))
    (year_beg : Option Int) (rows : List ρ) : Except String (List ρ) :=
  match year_beg with
  | some y =>
    if y ≠ 0 then
      match pyDate y 1 1 with
      | .error e => .error e
      | .ok d => .ok (rows.filter (fun r => optTest (startDate r) (fun sd => dateLe d sd)))
    else .ok rows
  | none => .ok rows

/-- The `if year_end:` block: keep rows with
`start_date <= date(year_end, 12, 31)`. -/
def yearEndFilter {ρ : Type} (startDate : ρ → Option (Int × Int × Int))
    (year_end : Option Int) (rows : List ρ) : Except String (List ρ) :=
  match year_end with
  | some y =>
    if y ≠ 0 then
      match pyDate y 12 31 with
      | .error e => .error e
      | .ok d => .ok (rows.filter (fun r => optTest (startDate r) (fun sd => dateLe sd d)))
    else .ok rows
  | none => .ok rows

/-- The `if age_beg or age_end:` block shared by `_apply_query_filters`
and `resolve_search`: both bounds are converted with `age * 31536000`
(raising `TypeError` on an unsupplied bound), then rows are kept when the
`int8range` of the user ages overlaps (`&&`) the study's eligibility-age
range. -/
def agesFilter {ρ : Type} (elig : ρ → Option EligibilityRec)
    (age_beg age_end : Option Int) (rows : List ρ) : Except String (List ρ) :=
  if truthyI age_beg || truthyI age_end then
    match pyMulYearSeconds age_beg with
    | .error e => .error e
    | .ok ageBegSec =>
      match pyMulYearSeconds age_end with
      | .error e => .error e
      | .ok ageEndSec =>
        .ok (rows.filter (fun r => optTest (elig r) (fun e =>
          int8rangeOverlap ageBegSec ageEndSec e.minimum_age e.maximum_age)))
  else .ok rows

/-- `studies.py:486-493`: the start-date year window of
`_apply_query_filters`, both bounds in source order. -/
def stepYears (p : QueryFilterParams) (rows : List QRow) : Except String (List QRow) :=
  match yearBegFilter (fun r => r.s.start_date) p.year_beg rows with
  | .error e => .error e
  | .ok rows2 => yearEndFilter (fun r => r.s.start_date) p.year_end rows2

/-- `studies.py:496-537`: the eligibility-age overlap filter of
`_apply_query_filters`. -/
def stepAges (p : QueryFilterParams) (rows : List QRow) : Except String (List QRow) :=
  agesFilter (fun r => r.el) p.age_beg p.age_end rows

/-- `TypeStudies._apply_query_filters`: the full filter pipeline, in
source order, over an in-memory study table. -/
def applyQueryFilters (db : List StudyRec) (p : QueryFilterParams)
    (distFn : Int × Int → Int × Int → Int) : Except String (List QRow) := do
  let rows := db.map (fun s => ⟨s, none, none, none⟩)
  let rows := stepStudyIds p rows
  let rows := stepStatuses p rows
  let rows := stepFacilityJoin p rows
  let rows := stepLocation p rows
  let rows := stepGeo p distFn rows
  let rows := stepInterventions p rows
  let rows := stepPhases p rows
  let rows := stepStudyTypes p rows
  let rows := stepEligibilityJoin p rows
  let rows := stepGender p rows
  let rows ← stepYears p rows
  stepAges p rows

/-- `COUNT(DISTINCT studies.study_id)` over the rows of a query. -/
def countDistinctStudyIds (rows : List QRow) : Int :=
  ((rows.map (fun r => r.s.study_id)).dedup.length : Int)

/-- `query.one_or_none()` for the single-row COUNT query of
`resolve_count`: an aggregate query always yields its one row. -/
def countQueryOneOrNone (rows : List QRow) : Option Int :=
  some (countDistinctStudyIds rows)

/-- `studies.py:926-931`: `count = 0; result = query.one_or_none();
if result: count = result[0]`. -/
def countFromResult (result : Option Int) : Int :=
  match result with
  | some c => c
  | none => 0

/-- `TypeStudies.resolve_count`: compose the COUNT(DISTINCT study_id)
query with `_apply_query_filters` and unwrap `one_or_none`. -/
def resolveCount (db : List StudyRec) (p : QueryFilterParams)
    (distFn : Int × Int → Int × Int → Int) : Except String Int := do
  let rows ← applyQueryFilters db p distFn
  pure (countFromResult (countQueryOneOrNone rows))

/-! ## The order-by step of `resolve_filter`

`ModelStudy` is declared in the external `fform` package.  Modelled from
the spec: the Schema Metadata Registry entry for the study entity — its
scalar-column whitelist and its relation set; the names listed are exactly
the `ModelStudy` attributes this repository's code and tests dereference. -/

/-- Scalar columns of the study entity referenced by the repository. -/
def modelStudyScalarColumns : List String :=
  ["study_id", "nct_id", "brief_title", "overall_status", "phase",
   "study_type", "start_date"]

/-- Relationship attributes of the study entity referenced by the
repository (`ModelStudy.facilities_canonical` etc.). -/
def modelStudyRelationships : List String :=
  ["facilities_canonical", "locations", "interventions", "eligibility",
   "descriptors"]

/-- Every attribute `getattr(ModelStudy, name)` resolves on the study
model: scalar columns and relationship attributes alike. -/
def modelStudyAttributes : List String :=
  modelStudyScalarColumns ++ modelStudyRelationships

/-- `studies.py:843-852`: the ordering step of `resolve_filter`.  A falsy
`order_by` (absent or `""`) applies no ordering; otherwise the name is
snake-cased (`snake` stands for graphene's `to_snake_case`) and resolved
with a bare `getattr` on `ModelStudy`: any attribute — column or not — is
accepted, and a name that is no attribute raises `AttributeError`.
Returns the applied ordering `(column, descending?)`, if any. -/
def resolveFilterOrderStep (snake : String → String) (order_by : Option String)
    (orderIsDesc : Bool) : Except String (Option (String × Bool)) :=
  match order_by with
  | none => .ok none
  | some ob0 =>
    if ob0 = "" then .ok none
    else
      let ob := snake ob0
      if modelStudyAttributes.contains ob then .ok (some (ob, orderIsDesc))
      else .error "AttributeError: type object ModelStudy has no attribute"

/-! ## The study-side query of `resolve_search` (lines 662-777)

Rows of `session.query(ModelStudy).join(ModelStudy.descriptors)`: one row
per (study, tagged MeSH descriptor) pair, later extended by the optional
eligibility join. -/

/-- One row of the search query. -/
structure SRow where
  s : StudyRec
  d : Nat
  el : Option EligibilityRec
  deriving DecidableEq, Repr

/-- The optional per-study search filters of `resolve_search` (gender,
year window, age window). -/
structure SearchParams where
  gender : Option String
  year_beg : Option Int
  year_end : Option Int
  age_beg : Option Int
  age_end : Option Int
  deriving Repr

/-- `resolve_search` with none of the optional filters supplied. -/
def noSearchParams : SearchParams := ⟨none, none, none, none, none⟩

/-- `studies.py:670-673`: the study × descriptor join. -/
def searchRows (db : List StudyRec) : List SRow :=
  db.flatMap (fun s => s.descriptors.map (fun d => ⟨s, d, none⟩))

/-- `studies.py:676-683`: the year filters of `resolve_search` (the same
two blocks as in `_apply_query_filters`). -/
def searchYears (p : SearchParams) (rows : List SRow) : Except String (List SRow) :=
  match yearBegFilter (fun r => r.s.start_date) p.year_beg rows with
  | .error e => .error e
  | .ok rows2 => yearEndFilter (fun r => r.s.start_date) p.year_end rows2

/-- `studies.py:687-688`: the eligibility join of `resolve_search`. -/
def searchEligibilityJoin (p : SearchParams) (rows : List SRow) : List SRow :=
  if truthyS p.gender || truthyI p.age_beg || truthyI p.age_end then
    rows.flatMap (fun r =>
      match r.s.eligibility with
      | some e => [{ r with el := some e }]
      | none => [])
  else rows

/-- `studies.py:691-703`: the gender filter of `resolve_search`. -/
def searchGender (p : SearchParams) (rows : List SRow) : List SRow :=
  match p.gender with
  | none => rows
  | some g =>
    if g = "" then rows
    else if g = "ALL" then
      rows.filter (fun r => optTest r.el (fun e => e.gender = "ALL"))
    else if g = "FEMALE" || g = "MALE" then
      rows.filter (fun r => optTest r.el (fun e => e.gender = "ALL" || e.gender = g))
    else rows

/-- `studies.py:706-745`: the eligibility-age overlap filter of
`resolve_search`, with the same `age * 31536000` conversion. -/
def searchAges (p : SearchParams) (rows : List SRow) : Except String (List SRow) :=
  agesFilter (fun r => r.el) p.age_beg p.age_end rows

/-- `studies.py:753-766`: `GROUP BY studies.study_id` with
`HAVING AND_i (array_agg(descriptor_id) && group_i)`: one study entity per
group of rows whose aggregated descriptor-id array overlaps every supplied
descriptor-id group. -/
def searchGroupHaving (rows : List SRow) (groups : List (List Nat)) : List StudyRec :=
  ((rows.map (fun r => r.s.study_id)).dedup).filterMap (fun sid =>
    let grpRows := rows.filter (fun r => r.s.study_id = sid)
    let descs := grpRows.map (fun r => r.d)
    if groups.all (fun g => descs.any (fun dsc => g.contains dsc)) then
      (grpRows.head?).map (fun r => r.s)
    else none)

/-- `studies.py:662-777`: the study-side query of `resolve_search`, given
the already-computed descriptor-id groups (the values of
`map_descriptor_children`). -/
def searchStudyQuery (db : List StudyRec) (p : SearchParams)
    (groups : List (List Nat)) : Except String (List StudyRec) := do
  let rows := searchRows db
  let rows ← searchYears p rows
  let rows := searchEligibilityJoin p rows
  let rows := searchGender p rows
  let rows ← searchAges p rows
  pure (searchGroupHaving rows groups)

/-- `TypeStudies.resolve_search`: closure expansion (or the identity
grouping when `do_include_children` is false), the two early empty-list
returns, then the study-side query. -/
def resolveSearch (tdb : TreeDb) (db : List StudyRec) (meshDescriptorIds : List Nat)
    (p : SearchParams) (do_include_children : Bool) :
    Except String (List StudyRec) :=
  if do_include_children then
    if treeNumbersAll tdb meshDescriptorIds = [] then .ok []
    else
      let mapChildren := mapDescriptorChildren tdb meshDescriptorIds
      if mapChildren = [] then .ok []
      else searchStudyQuery db p (mapChildren.map (fun e => e.2))
  else
    let mapChildren := meshDescriptorIds.map (fun d => (d, [d]))
    if mapChildren = [] then .ok []
    else searchStudyQuery db p (mapChildren.map (fun e => e.2))

/-! ## The by-country aggregation of `TypeStudiesStats` -/

/-- `studies_stats.py:394-401`: the `(study_id, country)` rows of
`session.query(country, COUNT(DISTINCT study_id)).join(facilities)`,
restricted to the supplied study ids when that list is truthy. -/
def countryRows (db : List StudyRec) (study_ids : List Nat) :
    List (Nat × Option String) :=
  let rows := db.flatMap (fun s =>
    s.facilities_canonical.map (fun f => (s.study_id, f.country)))
  if truthyL study_ids then rows.filter (fun r => study_ids.contains r.1)
  else rows

/-- `GROUP BY country` with `COUNT(DISTINCT study_id)` per group. -/
def aggCountsByCountry (rows : List (Nat × Option String)) :
    List (Option String × Nat) :=
  ((rows.map (fun r => r.2)).dedup).map (fun c =>
    (c, ((rows.filter (fun r => r.2 = c)).map (fun r => r.1)).dedup.length))

/-- Insert one aggregation row in front of the first strictly-smaller
count (`ORDER BY count DESC`; equal counts keep their relative order).
Generic in the group-key type: the key is a country string, a canonical
facility or a descriptor id depending on the aggregation. -/
def insertDescByCount {α : Type} (x : α × Nat) :
    List (α × Nat) → List (α × Nat)
  | [] => [x]
  | y :: ys => if y.2 < x.2 then x :: y :: ys else y :: insertDescByCount x ys

/-- `ORDER BY COUNT(DISTINCT study_id) DESC` as an insertion sort. -/
def sortDescByCount {α : Type} (l : List (α × Nat)) : List (α × Nat) :=
  l.foldr insertDescByCount []

/-- `TypeStudiesStats.resolve_count_studies_by_country`: join, group,
distinct-count, order descending, truthy limit. -/
def resolveCountStudiesByCountry (db : List StudyRec) (study_ids : List Nat)
    (limit : Option Nat) : List (Option String × Nat) :=
  let sorted := sortDescByCount (aggCountsByCountry (countryRows db study_ids))
  match limit with
  | some l => if l ≠ 0 then sorted.take l else sorted
  | none => sorted

/-! ## The by-facility aggregation of `TypeStudiesStats` -/

/-- One row of the query built by `resolve_count_studies_by_facility`
(`studies_stats.py:557-561`): a study joined to one of its canonical
facilities, plus the study-descriptor id once the `mesh_descriptor_ids`
join of lines 643-647 has been applied (`none` before that join). -/
structure FRow where
  f : FacilityRec
  s : StudyRec
  d : Option Nat
  deriving DecidableEq, Repr

/-- The argument record of `resolve_count_studies_by_facility`
(`studies_stats.py:489-504`).  The optional `order_by` / `order` pair
(lines 650-663) appends a tie-breaking secondary ordering AFTER the
count ordering, resolved by the same unvalidated `getattr` pattern as
`resolve_filter`; the spec leaves the order of equal-count rows
undefined and the tie-breaker is not modelled. -/
structure CountStudiesByFacilityParams where
  study_ids : List Nat
  mesh_descriptor_ids : List Nat
  overall_statuses : List String
  cities : List String
  states : List String
  countries : List String
  current_location_longitude : Option Int
  current_location_latitude : Option Int
  distance_max_km : Option Int
  offset : Option Nat
  limit : Option Nat
  deriving Repr

/-- `studies_stats.py:557-561`:
`session.query(FacilityCanonical, COUNT(DISTINCT studies.study_id))`
joined through the `Study.facilities_canonical` relationship. -/
def facilityJoinRows (db : List StudyRec) : List FRow :=
  db.flatMap (fun s => s.facilities_canonical.map (fun f => ⟨f, s, none⟩))

/-- `studies_stats.py:563-564`: the conditional study-id filter. -/
def fStepIds (p : CountStudiesByFacilityParams) (rows : List FRow) : List FRow :=
  if truthyL p.study_ids then
    rows.filter (fun r => p.study_ids.contains r.s.study_id)
  else rows

/-- `studies_stats.py:588`: the UNCONDITIONAL second study-id filter —
an SQL `IN` over the (possibly empty) `study_ids` list; an `IN` over the
empty list matches nothing. -/
def fStepIdsAlways (p : CountStudiesByFacilityParams) (rows : List FRow) :
    List FRow :=
  rows.filter (fun r => p.study_ids.contains r.s.study_id)

/-- `studies_stats.py:591-596`: the overall-status allow-list. -/
def fStepStatuses (p : CountStudiesByFacilityParams) (rows : List FRow) :
    List FRow :=
  if truthyL p.overall_statuses then
    rows.filter (fun r => p.overall_statuses.contains r.s.overall_status)
  else rows

/-- `studies_stats.py:602-605`: the locality (city) filter.  SQL `IN` on
a NULL column is never true (`optTest`). -/
def fStepCities (p : CountStudiesByFacilityParams) (rows : List FRow) :
    List FRow :=
  if truthyL p.cities then
    rows.filter (fun r => optTest r.f.locality p.cities.contains)
  else rows

/-- `studies_stats.py:606-611`: the administrative-area (state) filter. -/
def fStepStates (p : CountStudiesByFacilityParams) (rows : List FRow) :
    List FRow :=
  if truthyL p.states then
    rows.filter (fun r =>
      optTest r.f.administrative_area_level_1 p.states.contains)
  else rows

/-- `studies_stats.py:612-615`: the country filter. -/
def fStepCountries (p : CountStudiesByFacilityParams) (rows : List FRow) :
    List FRow :=
  if truthyL p.countries then
    rows.filter (fun r => optTest r.f.country p.countries.contains)
  else rows

/-- `studies_stats.py:600-615`: the guarded city/state/country block.
The `query.join(ModelStudy.facilities_canonical)` at line 601 re-joins
the relationship already joined at line 561; the filter predicates
reference the `facilities_canonical` columns of that join, so the
re-join adds no constraint and is modelled as a no-op. -/
def fStepLocation (p : CountStudiesByFacilityParams) (rows : List FRow) :
    List FRow :=
  if truthyL p.cities || truthyL p.states || truthyL p.countries then
    fStepCountries p (fStepStates p (fStepCities p rows))
  else rows

/-- `studies_stats.py:617-639`: the truthiness-guarded geospatial filter
(with another no-op re-join of the facilities relationship at line 622);
`ST_Distance_Sphere` is abstracted as `distFn`, and the maximum distance
is converted to meters (line 624). -/
def fStepGeo (p : CountStudiesByFacilityParams)
    (distFn : Int × Int → Int × Int → Int) (rows : List FRow) : List FRow :=
  if truthyI p.current_location_longitude &&
      truthyI p.current_location_latitude && truthyI p.distance_max_km then
    rows.filter (fun r =>
      distFn (p.current_location_longitude.getD 0,
              p.current_location_latitude.getD 0) r.f.coordinates ≤
        p.distance_max_km.getD 0 * 1000)
  else rows

/-- `studies_stats.py:643-647`: inner-join the study descriptors and
restrict to the requested MeSH descriptor ids. -/
def fStepDescriptors (p : CountStudiesByFacilityParams) (rows : List FRow) :
    List FRow :=
  if truthyL p.mesh_descriptor_ids then
    (rows.flatMap (fun r =>
        r.s.descriptors.map (fun dd => { r with d := some dd }))).filter
      (fun r => optTest r.d p.mesh_descriptor_ids.contains)
  else rows

/-- The JOIN/WHERE pipeline of `resolve_count_studies_by_facility`
(`studies_stats.py:557-647`), each step one source block in source order
(SQL applies every WHERE clause before GROUP BY, so the filters added
after the `group_by` call at line 567 still restrict the grouped rows). -/
def facilityAggRows (db : List StudyRec) (p : CountStudiesByFacilityParams)
    (distFn : Int × Int → Int × Int → Int) : List FRow :=
  fStepDescriptors p (fStepGeo p distFn (fStepLocation p
    (fStepStatuses p (fStepIdsAlways p (fStepIds p (facilityJoinRows db))))))

/-- `studies_stats.py:567`: `GROUP BY facility_canonical_id`, computing
`COUNT(DISTINCT studies.study_id)` per group (lines 552-554); the
selected `FacilityCanonical` entity of a group is the facility of the
group's rows (the grouped primary key determines it). -/
def aggCountsByFacility (rows : List FRow) : List (FacilityRec × Nat) :=
  ((rows.map (fun r => r.f.facility_canonical_id)).dedup).filterMap (fun fid =>
    ((rows.filter (fun r => r.f.facility_canonical_id = fid)).head?).map
      (fun r0 =>
        (r0.f, ((rows.filter (fun r => r.f.facility_canonical_id = fid)).map
            (fun r => r.s.study_id)).dedup.length)))

/-- `TypeStudiesStats.resolve_count_studies_by_facility`
(`studies_stats.py:489-684`): join, filter, group by facility, distinct
count, order by count descending, truthy offset (line 666) and truthy
limit (line 670).  (`apply_requested_fields` at line 580 only restricts
the loaded `FacilityCanonical` columns and is not modelled.) -/
def resolveCountStudiesByFacility (db : List StudyRec)
    (p : CountStudiesByFacilityParams)
    (distFn : Int × Int → Int × Int → Int) : List (FacilityRec × Nat) :=
  let sorted :=
    sortDescByCount (aggCountsByFacility (facilityAggRows db p distFn))
  let sorted :=
    match p.offset with
    | some o => if o ≠ 0 then sorted.drop o else sorted
    | none => sorted
  match p.limit with
  | some l => if l ≠ 0 then sorted.take l else sorted
  | none => sorted

/-! ## The by-descriptor aggregation of `TypeStudiesStats` -/

/-- A `study_descriptors` association row (`ModelStudyDescriptor`): study
id, MeSH descriptor id and the study-descriptor type (the value string of
the `EnumMeshTerm` member). -/
structure StudyDescriptorRow where
  study_id : Nat
  descriptor_id : Nat
  study_descriptor_type : String
  deriving DecidableEq, Repr

/-- `studies_stats.py:827-834`: `session.query(Descriptor,
COUNT(DISTINCT study_descriptors.study_id))` joined to `StudyDescriptor`
on equal descriptor ids.  The descriptor table is modelled by its id
column, the only `Descriptor` field this aggregation reads. -/
def descriptorJoinRows (descriptors : List Nat)
    (sdRows : List StudyDescriptorRow) : List (Nat × StudyDescriptorRow) :=
  descriptors.flatMap (fun d =>
    (sdRows.filter (fun row => row.descriptor_id = d)).map (fun row => (d, row)))

/-- `studies_stats.py:835-836`: the conditional study-id filter of the
by-descriptor aggregation. -/
def dStepIds (study_ids : List Nat) (rows : List (Nat × StudyDescriptorRow)) :
    List (Nat × StudyDescriptorRow) :=
  if truthyL study_ids then
    rows.filter (fun r => study_ids.contains r.2.study_id)
  else rows

/-- `studies_stats.py:838-842`: the study-descriptor-type filter
(`EnumMeshTerm.get_member` resolves the supplied member's value string,
which is then compared for equality). -/
def dStepType (mesh_term_type : Option String)
    (rows : List (Nat × StudyDescriptorRow)) : List (Nat × StudyDescriptorRow) :=
  if truthyS mesh_term_type then
    rows.filter (fun r => r.2.study_descriptor_type = mesh_term_type.getD "")
  else rows

/-- The JOIN/WHERE pipeline of `resolve_count_studies_by_descriptor`
(`studies_stats.py:827-842`), each step one source block in source
order. -/
def descriptorAggRows (descriptors : List Nat) (sdRows : List StudyDescriptorRow)
    (study_ids : List Nat) (mesh_term_type : Option String) :
    List (Nat × StudyDescriptorRow) :=
  dStepType mesh_term_type (dStepIds study_ids
    (descriptorJoinRows descriptors sdRows))

/-- `studies_stats.py:845`: `GROUP BY descriptor_id`, computing
`COUNT(DISTINCT study_descriptors.study_id)` per group (lines 822-824). -/
def aggCountsByDescriptor (rows : List (Nat × StudyDescriptorRow)) :
    List (Nat × Nat) :=
  ((rows.map (fun r => r.1)).dedup).map (fun d =>
    (d, ((rows.filter (fun r => r.1 = d)).map
        (fun r => r.2.study_id)).dedup.length))

/-- `TypeStudiesStats.resolve_count_studies_by_descriptor`
(`studies_stats.py:791-864`): join, filter, group by descriptor,
distinct count, order by count descending, truthy limit. -/
def resolveCountStudiesByDescriptor (descriptors : List Nat)
    (sdRows : List StudyDescriptorRow) (study_ids : List Nat)
    (mesh_term_type : Option String) (limit : Option Nat) : List (Nat × Nat) :=
  let sorted :=
    sortDescByCount (aggCountsByDescriptor
      (descriptorAggRows descriptors sdRows study_ids mesh_term_type))
  match limit with
  | some l => if l ≠ 0 then sorted.take l else sorted
  | none => sorted

/-! ## The requested-field projection planner of `utils.py`

`extract_requested_fields` maps a field with no selection set to `None`
(`FieldsDict.leaf`) and a field with sub-selections to a nested dict
(`FieldsDict.node`).  `sqlalchemy.inspect(orm_class)` is modelled by
`OrmInspect`: the column names and the relationship map (name → inspected
target class).  A query option chain is the `Load` object built by
`load_only` / `joinedload` chaining. -/

/-- The requested-field dictionary (values of the dict produced by
`extract_requested_fields`): `leaf` is Python `None`. -/
inductive FieldsDict where
  | leaf : FieldsDict
  | node : List (String × FieldsDict) → FieldsDict
  deriving Repr

/-- An ORM mapper inspection: scalar-column names and relationships. -/
inductive OrmInspect where
  | mk : List String → List (String × OrmInspect) → OrmInspect
  deriving Repr

/-- Column names of an inspection. -/
def OrmInspect.columns : OrmInspect → List String
  | .mk cols _ => cols

/-- Relationship map of an inspection. -/
def OrmInspect.relationships : OrmInspect → List (String × OrmInspect)
  | .mk _ rels => rels

/-- Relationship names of an inspection. -/
def OrmInspect.relKeys (i : OrmInspect) : List String :=
  i.relationships.map (fun e => e.1)

/-- `utils.py:115-146` (`_get_load_only_fields`): the requested keys that
are columns of the inspected class; called on Python `None` (a relation
requested with no sub-fields) it raises `AttributeError` at
`fields_all.keys()`. -/
def getLoadOnlyFields : FieldsDict → OrmInspect → Except String (List String)
  | .leaf, _ => .error "AttributeError: NoneType object has no attribute keys"
  | .node entries, insp =>
    .ok ((entries.map (fun e => e.1)).filter (fun k => insp.columns.contains k))

/-- One link of a SQLAlchemy `Load` option chain. -/
inductive LoadStep where
  | loadOnly : List String → LoadStep
  | joinedLoad : String → LoadStep
  deriving DecidableEq, Repr

mutual

/-- `utils.py:149-235` (`_get_query_options`): build the `load_only` /
`joinedload` option chains for the requested fields.  The loop over
`names_rels` (requested keys that are relationships) is realised by
`gqoRels`, which walks the entries in order and skips non-relationship
keys — the same traversal as iterating the filtered key list and looking
each key up in the dict. -/
def getQueryOptions (fields : FieldsDict) (insp : OrmInspect)
    (opt : Option (List LoadStep)) : Except String (List (List LoadStep)) :=
  match fields with
  | .leaf => .error "AttributeError: NoneType object has no attribute keys"
  | .node entries =>
    let base : List LoadStep :=
      match opt with
      | none =>
        [LoadStep.loadOnly
          ((entries.map (fun e => e.1)).filter (fun k => insp.columns.contains k))]
      | some o => o
    if entries.all (fun e => !(insp.relKeys.contains e.1)) then .ok [base]
    else gqoRels entries insp base

/-- The `for name_rel in names_rels` loop body of `_get_query_options`. -/
def gqoRels (entries : List (String × FieldsDict)) (insp : OrmInspect)
    (base : List LoadStep) : Except String (List (List LoadStep)) :=
  match entries with
  | [] => .ok []
  | e :: rest =>
    if insp.relKeys.contains e.1 then
      match lookupList insp.relationships e.1 with
      | none => .error "KeyError"
      | some irel => do
        let colsRel ← getLoadOnlyFields e.2 irel
        let chain := base ++ [LoadStep.joinedLoad e.1, LoadStep.loadOnly colsRel]
        let here ← getQueryOptions e.2 irel (some chain)
        let more ← gqoRels rest insp base
        pure (here ++ more)
    else gqoRels rest insp base

end

/-! ## Verification-support definitions -/

/-- Every entry of a closure map contains its own key (the
`setdefault(did, [did])` default guarantees this). -/
def SelfKeyMem (m : List (Nat × List Nat)) : Prop :=
  ∀ e ∈ m, e.1 ∈ e.2

/-- `c` is recorded under key `r` in an id-list association map. -/
def lkMem (m : List (Nat × List Nat)) (r c : Nat) : Prop :=
  ∃ vs, lookupList m r = some vs ∧ c ∈ vs

mutual

/-- The requested-field trees on which the planner cannot hit the
`None.keys()` `AttributeError`: the tree is a dict and every entry whose
key names a relationship carries a dict in turn. -/
def plannerSafe : FieldsDict → OrmInspect → Bool
  | .leaf, _ => false
  | .node entries, insp => plannerSafeList entries insp

/-- `plannerSafe` over the entries of one dict level. -/
def plannerSafeList : List (String × FieldsDict) → OrmInspect → Bool
  | [], _ => true
  | e :: rest, insp =>
    (match lookupList insp.relationships e.1 with
     | some irel => plannerSafe e.2 irel
     | none => true) &&
    plannerSafeList rest insp

end

/-! ### Concrete fixtures used by the counterexamples and witnesses -/

/-- Spec §8 Scenario 2: root descriptor `1` with path `"C04"`, descriptor
`2` with path `"C04.100"`, descriptor `3` with path `"C041.200"`. -/
def dbScenario2 : TreeDb := [(1, "C04"), (2, "C04.100"), (3, "C041.200")]

/-- A study with one far-away, non-fallback facility, one intervention
and an eligibility row with an unknown minimum age. -/
def studyOne : StudyRec :=
  ⟨1, "RECRUITING", "P1", "INTERVENTIONAL", some (2010, 1, 1),
    [⟨7, some "X", some "US", none, none, none, none, none, (50, 50)⟩],
    ["DRUG"], [1], some ⟨"ALL", none, some 500⟩⟩

/-- A study whose only canonical facility is a fallback record (its name
equals its country). -/
def studyFallbackOnly : StudyRec :=
  ⟨2, "RECRUITING", "P1", "INTERVENTIONAL", none,
    [⟨8, some "Germany", some "Germany", none, none, none, none, none, (9, 52)⟩],
    [], [], none⟩

/-- A study tagged with MeSH descriptor `1` only. -/
def studyDesc1 : StudyRec := ⟨3, "R", "P", "T", none, [], [], [1], none⟩

/-- A study with three facilities, two of them in the same country. -/
def studyThreeFacilities : StudyRec :=
  ⟨4, "R", "P", "T", none,
    [⟨1, none, some "US", none, none, none, none, none, (0, 0)⟩,
     ⟨2, none, some "US", none, none, none, none, none, (0, 0)⟩,
     ⟨3, none, some "DE", none, none, none, none, none, (0, 0)⟩],
    [], [], none⟩

/-- Taxonomy store for the unknown-root scenario: only descriptor `1` has
a tree number. -/
def tdbKnown1 : TreeDb := [(1, "A01")]

/-- Geo parameters with all three values supplied but a zero longitude
(the Greenwich meridian). -/
def paramsGeoZeroLon : QueryFilterParams :=
  { noFilters with current_location_longitude := some 0,
                   current_location_latitude := some 1,
                   distance_max_km := some 1 }

/-- An age filter with only the upper bound supplied. -/
def paramsAgeEndOnly : QueryFilterParams := { noFilters with age_end := some 65 }

/-- An age filter with only the (non-zero) lower bound supplied. -/
def paramsAgeBegOnly : QueryFilterParams := { noFilters with age_beg := some 5 }

/-- A country filter on `"US"`. -/
def paramsCountriesUS : QueryFilterParams := { noFilters with countries := ["US"] }

/-- Geo parameters with all three values supplied and truthy. -/
def paramsGeoSmall : QueryFilterParams :=
  { noFilters with current_location_longitude := some 3,
                   current_location_latitude := some 1,
                   distance_max_km := some 1 }

/-- The row produced for `studyOne` once the facility join is applied. -/
def rowOneUS : QRow :=
  ⟨studyOne, some ⟨7, some "X", some "US", none, none, none, none, none, (50, 50)⟩,
    none, none⟩

/-- A distance oracle that puts every facility `10^9` meters away. -/
def distFar : Int × Int → Int × Int → Int := fun _ _ => 1000000000

/-- A distance oracle that puts every facility at distance zero. -/
def distZero : Int × Int → Int × Int → Int := fun _ _ => 0

/-- By-facility aggregation arguments for the three-facility fixture:
only the (required) study-id list is supplied. -/
def facilityParamsW : CountStudiesByFacilityParams :=
  ⟨[4], [], [], [], [], [], none, none, none, none, none⟩

/-- The first facility of `studyThreeFacilities`. -/
def facilityOneUS : FacilityRec :=
  ⟨1, none, some "US", none, none, none, none, none, (0, 0)⟩

/-- One study-descriptor association row linking the three-facility study
to descriptor `7`. -/
def sdRowW : StudyDescriptorRow := ⟨4, 7, "mesh-list"⟩

/-- The location inspection of end-to-end Scenario 1 (spec §8). -/
def inspLocation : OrmInspect :=
  .mk ["location_id"] [("facility", .mk ["facility_id", "name"] [])]

/-- The study inspection of end-to-end Scenario 1 (spec §8). -/
def inspStudy : OrmInspect :=
  .mk ["study_id", "brief_title"] [("locations", inspLocation)]

/-! ## Association-list lemmas -/

theorem lookupList_setdefaultAppend {α : Type} [DecidableEq α] {β : Type}
    (m : List (α × List β)) (k : α) (d : List β) (v : β) (k' : α) :
    lookupList (setdefaultAppend m k d v) k' =
      if k = k' then
        match lookupList m k with
        | some vs => some (vs ++ [v])
        | none => some (d ++ [v])
      else lookupList m k' := by
  induction m with
  | nil =>
    by_cases h : k = k' <;> simp [setdefaultAppend, lookupList, h]
  | cons e rest ih =>
    obtain ⟨a, vs⟩ := e
    by_cases hak : a = k
    · subst hak
      by_cases h : a = k' <;> simp [setdefaultAppend, lookupList, h]
    · by_cases h : a = k'
      · subst h
        have hkk : ¬k = a := fun hc => hak hc.symm
        simp [setdefaultAppend, lookupList, hak, hkk]
      · simp [setdefaultAppend, lookupList, hak, h, ih]

theorem lookupList_some_mem {α : Type} [DecidableEq α] {β : Type}
    {m : List (α × β)} {k : α} {v : β} (h : lookupList m k = some v) :
    (k, v) ∈ m := by
  induction m with
  | nil => simp [lookupList] at h
  | cons e rest ih =>
    obtain ⟨a, b⟩ := e
    by_cases hak : a = k
    · subst hak
      simp [lookupList] at h
      simp [h]
    · simp [lookupList, hak] at h
      simp [ih h]

theorem lookupList_eq_some_of_mem {α : Type} [DecidableEq α] {β : Type}
    {m : List (α × β)} {k : α} {v : β}
    (hnd : (m.map (fun e => e.1)).Nodup) (h : (k, v) ∈ m) :
    lookupList m k = some v := by
  induction m with
  | nil => simp at h
  | cons e rest ih =>
    obtain ⟨a, b⟩ := e
    rw [List.map_cons, List.nodup_cons] at hnd
    rcases List.mem_cons.mp h with h1 | h1
    · rw [Prod.mk.injEq] at h1
      obtain ⟨rfl, rfl⟩ := h1
      simp [lookupList]
    · have hak : ¬a = k := by
        rintro rfl
        exact hnd.1 (List.mem_map.mpr ⟨(a, v), h1, rfl⟩)
      simp only [lookupList, hak, if_false]
      exact ih hnd.2 h1

theorem keys_setdefaultAppend_subset {α : Type} [DecidableEq α] {β : Type}
    (m : List (α × List β)) (k : α) (d : List β) (v : β) :
    ((setdefaultAppend m k d v).map (fun e => e.1)) ⊆ k :: m.map (fun e => e.1) := by
  induction m with
  | nil =>
    simp [setdefaultAppend]
  | cons e rest ih =>
    obtain ⟨a, vs⟩ := e
    by_cases hak : a = k
    · subst hak
      simp only [setdefaultAppend, if_pos rfl, List.map_cons]
      intro x hx
      rcases List.mem_cons.mp hx with h1 | h1
      · exact List.mem_cons.mpr (Or.inr (List.mem_cons.mpr (Or.inl h1)))
      · exact List.mem_cons.mpr (Or.inr (List.mem_cons.mpr (Or.inr h1)))
    · simp only [setdefaultAppend, hak, if_false, List.map_cons]
      intro x hx
      rcases List.mem_cons.mp hx with h1 | h1
      · exact List.mem_cons.mpr (Or.inr (List.mem_cons.mpr (Or.inl h1)))
      · rcases List.mem_cons.mp (ih h1) with h2 | h2
        · exact List.mem_cons.mpr (Or.inl h2)
        · exact List.mem_cons.mpr (Or.inr (List.mem_cons.mpr (Or.inr h2)))

theorem keys_setdefaultAppend_nodup {α : Type} [DecidableEq α] {β : Type}
    (m : List (α × List β)) (k : α) (d : List β) (v : β)
    (hnd : (m.map (fun e => e.1)).Nodup) :
    ((setdefaultAppend m k d v).map (fun e => e.1)).Nodup := by
  induction m with
  | nil => simp [setdefaultAppend]
  | cons e rest ih =>
    obtain ⟨a, vs⟩ := e
    rw [List.map_cons, List.nodup_cons] at hnd
    by_cases hak : a = k
    · subst hak
      have hrw : setdefaultAppend ((a, vs) :: rest) a d v = (a, vs ++ [v]) :: rest := by
        simp [setdefaultAppend]
      rw [hrw, List.map_cons, List.nodup_cons]
      exact hnd
    · simp only [setdefaultAppend, hak, if_false, List.map_cons, List.nodup_cons]
      refine ⟨?_, ih hnd.2⟩
      intro hmem
      rcases List.mem_cons.mp (keys_setdefaultAppend_subset rest k d v hmem) with h1 | h1
      · exact hak h1
      · exact hnd.1 h1

/-! ## Characterization of `map_descriptor_tns` -/

theorem mem_treeNumbersOf (db : TreeDb) (d : Nat) (t : String) :
    t ∈ treeNumbersOf db d ↔ (d, t) ∈ db := by
  unfold treeNumbersOf
  simp only [List.mem_map, List.mem_filter, decide_eq_true_eq]
  constructor
  · rintro ⟨⟨a, b⟩, ⟨hm, rfl⟩, rfl⟩
    exact hm
  · intro hm
    exact ⟨(d, t), ⟨hm, rfl⟩, rfl⟩

theorem queryTns_cons (a : Nat) (t : String) (rest : TreeDb) (ids : List Nat) :
    queryTns ((a, t) :: rest) ids =
      if ids.contains a then (a, t) :: queryTns rest ids else queryTns rest ids := by
  cases h : ids.contains a <;> simp [queryTns, List.filter_cons, h, List.elem_iff] <;>
    simp_all [List.elem_iff]

theorem treeNumbersOf_cons (a : Nat) (t : String) (rest : TreeDb) (d : Nat) :
    treeNumbersOf ((a, t) :: rest) d =
      if a = d then t :: treeNumbersOf rest d else treeNumbersOf rest d := by
  by_cases h : a = d <;> simp [treeNumbersOf, List.filter_cons, h]

theorem treeNumbersOf_queryTns (db : TreeDb) (ids : List Nat) (d : Nat) :
    treeNumbersOf (queryTns db ids) d =
      if ids.contains d then treeNumbersOf db d else [] := by
  induction db with
  | nil => cases h : ids.contains d <;> simp [queryTns, treeNumbersOf, h]
  | cons row rest ih =>
    obtain ⟨a, t⟩ := row
    rw [queryTns_cons]
    by_cases had : a = d
    · subst had
      cases h : ids.contains a <;> simp_all [treeNumbersOf_cons, List.elem_iff]
    · cases h : ids.contains a <;> cases h2 : ids.contains d <;>
        simp_all [treeNumbersOf_cons, had, List.elem_iff]

theorem lookup_foldTns (rows : List (Nat × String)) (acc : List (Nat × List String))
    (d : Nat) :
    lookupList
        (rows.foldl (fun acc row => setdefaultAppend acc row.1 [] row.2) acc) d =
      match lookupList acc d with
      | some vs => some (vs ++ treeNumbersOf rows d)
      | none =>
        if treeNumbersOf rows d = [] then none else some (treeNumbersOf rows d) := by
  induction rows generalizing acc with
  | nil =>
    have h0 : treeNumbersOf [] d = [] := rfl
    cases h : lookupList acc d <;> simp [h0, h]
  | cons row rest ih =>
    obtain ⟨a, t⟩ := row
    rw [List.foldl_cons, ih]
    rw [lookupList_setdefaultAppend]
    by_cases had : a = d
    · subst had
      have htn : treeNumbersOf ((a, t) :: rest) a = t :: treeNumbersOf rest a := by
        simp [treeNumbersOf]
      rw [htn]
      cases h : lookupList acc a <;> simp [h]
    · have htn : treeNumbersOf ((a, t) :: rest) d = treeNumbersOf rest d := by
        simp [treeNumbersOf, had]
      rw [htn]
      simp [had]

theorem lookupList_mapDescriptorTns (db : TreeDb) (ids : List Nat) (d : Nat) :
    lookupList (mapDescriptorTns db ids) d =
      if ids.contains d then
        (if treeNumbersOf db d = [] then none else some (treeNumbersOf db d))
      else none := by
  unfold mapDescriptorTns
  rw [lookup_foldTns]
  have h0 : lookupList ([] : List (Nat × List String)) d = none := rfl
  rw [h0, treeNumbersOf_queryTns]
  cases h : ids.contains d <;> simp [h]

theorem keys_mapDescriptorTns_nodup (db : TreeDb) (ids : List Nat) :
    ((mapDescriptorTns db ids).map (fun e => e.1)).Nodup := by
  unfold mapDescriptorTns
  generalize queryTns db ids = rows
  have h : ∀ (acc : List (Nat × List String)),
      ((acc.map (fun e => e.1)).Nodup) →
      (((rows.foldl (fun acc row => setdefaultAppend acc row.1 [] row.2) acc).map
          (fun e => e.1)).Nodup) := by
    induction rows with
    | nil => intro acc hacc; simpa using hacc
    | cons row rest ih =>
      intro acc hacc
      rw [List.foldl_cons]
      exact ih _ (keys_setdefaultAppend_nodup acc row.1 [] row.2 hacc)
  exact h [] (by simp)

theorem mem_mapDescriptorTns (db : TreeDb) (ids : List Nat) (d : Nat)
    (tns : List String) :
    (d, tns) ∈ mapDescriptorTns db ids ↔
      (ids.contains d = true ∧ tns = treeNumbersOf db d ∧ tns ≠ []) := by
  constructor
  · intro hm
    have hl := lookupList_eq_some_of_mem (keys_mapDescriptorTns_nodup db ids) hm
    rw [lookupList_mapDescriptorTns] at hl
    by_cases h : ids.contains d
    · rw [if_pos h] at hl
      by_cases h2 : treeNumbersOf db d = []
      · rw [if_pos h2] at hl; cases hl
      · rw [if_neg h2, Option.some.injEq] at hl
        subst hl
        exact ⟨h, rfl, h2⟩
    · rw [if_neg h] at hl; cases hl
  · rintro ⟨h1, rfl, h3⟩
    apply lookupList_some_mem (m := mapDescriptorTns db ids)
    rw [lookupList_mapDescriptorTns, if_pos h1, if_neg h3]

/-! ## Characterization of the child-attribution loops -/

theorem strStartsWith_refl (s : String) : strStartsWith s s = true := by
  simp [strStartsWith, List.isPrefixOf_iff_prefix]

theorem selfKeyMem_setdefaultAppend (m : List (Nat × List Nat)) (k v : Nat)
    (h : SelfKeyMem m) : SelfKeyMem (setdefaultAppend m k [k] v) := by
  induction m with
  | nil =>
    intro e he
    simp [setdefaultAppend] at he
    subst he
    simp
  | cons a rest ih =>
    obtain ⟨b, vs⟩ := a
    have hhead : b ∈ vs := h (b, vs) (List.mem_cons_self _ _)
    have htail : SelfKeyMem rest := fun e he => h e (List.mem_cons.mpr (Or.inr he))
    by_cases hbk : b = k
    · subst hbk
      intro e he
      simp only [setdefaultAppend, if_pos rfl] at he
      rcases List.mem_cons.mp he with h1 | h1
      · subst h1
        exact List.mem_append.mpr (Or.inl hhead)
      · exact h e (List.mem_cons.mpr (Or.inr h1))
    · intro e he
      simp only [setdefaultAppend, hbk, if_false] at he
      rcases List.mem_cons.mp he with h1 | h1
      · subst h1
        exact hhead
      · exact ih htail e h1

theorem lkMem_empty (r c : Nat) : ¬lkMem [] r c := by
  rintro ⟨vs, hv, -⟩
  simp [lookupList] at hv

theorem lkMem_setdefaultAppend (m : List (Nat × List Nat)) (k v r c : Nat)
    (hself : SelfKeyMem m) :
    lkMem (setdefaultAppend m k [k] v) r c ↔
      lkMem m r c ∨ (k = r ∧ (c = v ∨ c = k)) := by
  unfold lkMem
  rw [lookupList_setdefaultAppend]
  by_cases hkr : k = r
  · subst hkr
    rw [if_pos rfl]
    cases h : lookupList m k with
    | some vs =>
      constructor
      · rintro ⟨ws, hw, hc⟩
        rw [Option.some.injEq] at hw
        subst hw
        rcases List.mem_append.mp hc with h1 | h1
        · exact Or.inl ⟨vs, rfl, h1⟩
        · exact Or.inr ⟨rfl, Or.inl (by simpa using h1)⟩
      · rintro (⟨ws, hw, hc⟩ | ⟨-, hcv⟩)
        · rw [Option.some.injEq] at hw
          subst hw
          exact ⟨vs ++ [v], rfl, List.mem_append.mpr (Or.inl hc)⟩
        · refine ⟨vs ++ [v], rfl, ?_⟩
          rcases hcv with rfl | rfl
          · exact List.mem_append.mpr (Or.inr (by simp))
          · exact List.mem_append.mpr (Or.inl (hself (c, vs) (lookupList_some_mem h)))
    | none =>
      constructor
      · rintro ⟨ws, hw, hc⟩
        rw [Option.some.injEq] at hw
        subst hw
        refine Or.inr ⟨rfl, ?_⟩
        rcases (by simpa using hc : c = k ∨ c = v) with h1 | h1
        · exact Or.inr h1
        · exact Or.inl h1
      · rintro (⟨ws, hw, -⟩ | ⟨-, hcv⟩)
        · cases hw
        · exact ⟨[k] ++ [v], rfl, by rcases hcv with rfl | rfl <;> simp⟩
  · rw [if_neg hkr]
    constructor
    · intro h1
      exact Or.inl h1
    · rintro (h1 | ⟨h1, -⟩)
      · exact h1
      · exact absurd h1 hkr

theorem attributeTns_cons (cd : Nat) (tn : String) (did : Nat) (p : String)
    (rest : List String) (acc : List (Nat × List Nat)) :
    attributeTns cd tn did (p :: rest) acc =
      attributeTns cd tn did rest
        (if strStartsWith tn p then setdefaultAppend acc did [did] cd else acc) := rfl

theorem attributeRow_cons (cd : Nat) (tn : String) (e : Nat × List String)
    (rest : List (Nat × List String)) (acc : List (Nat × List Nat)) :
    attributeRow cd tn (e :: rest) acc =
      attributeRow cd tn rest (attributeTns cd tn e.1 e.2 acc) := rfl

theorem selfKeyMem_attributeTns (cd : Nat) (tn : String) (did : Nat)
    (tns : List String) (acc : List (Nat × List Nat)) (hself : SelfKeyMem acc) :
    SelfKeyMem (attributeTns cd tn did tns acc) := by
  induction tns generalizing acc with
  | nil => exact hself
  | cons p rest ih =>
    rw [attributeTns_cons]
    by_cases hsw : strStartsWith tn p
    · rw [if_pos hsw]
      exact ih _ (selfKeyMem_setdefaultAppend acc did cd hself)
    · rw [if_neg hsw]
      exact ih _ hself

theorem lkMem_attributeTns (cd : Nat) (tn : String) (did : Nat)
    (tns : List String) (acc : List (Nat × List Nat)) (hself : SelfKeyMem acc)
    (r c : Nat) :
    lkMem (attributeTns cd tn did tns acc) r c ↔
      lkMem acc r c ∨
        (did = r ∧ (∃ p ∈ tns, strStartsWith tn p = true) ∧ (c = cd ∨ c = did)) := by
  induction tns generalizing acc with
  | nil => simp [attributeTns]
  | cons p rest ih =>
    rw [attributeTns_cons]
    by_cases hsw : strStartsWith tn p
    · rw [if_pos hsw]
      rw [ih (setdefaultAppend acc did [did] cd)
        (selfKeyMem_setdefaultAppend acc did cd hself)]
      rw [lkMem_setdefaultAppend acc did cd r c hself]
      constructor
      · rintro ((h1 | ⟨h1, h2⟩) | ⟨h1, h2, h3⟩)
        · exact Or.inl h1
        · exact Or.inr ⟨h1, ⟨p, List.mem_cons_self _ _, hsw⟩, h2⟩
        · refine Or.inr ⟨h1, ?_, h3⟩
          obtain ⟨q, hq, hq2⟩ := h2
          exact ⟨q, List.mem_cons.mpr (Or.inr hq), hq2⟩
      · rintro (h1 | ⟨h1, -, h3⟩)
        · exact Or.inl (Or.inl h1)
        · exact Or.inl (Or.inr ⟨h1, h3⟩)
    · rw [if_neg hsw, ih acc hself]
      constructor
      · rintro (h1 | ⟨h1, h2, h3⟩)
        · exact Or.inl h1
        · refine Or.inr ⟨h1, ?_, h3⟩
          obtain ⟨q, hq, hq2⟩ := h2
          exact ⟨q, List.mem_cons.mpr (Or.inr hq), hq2⟩
      · rintro (h1 | ⟨h1, h2, h3⟩)
        · exact Or.inl h1
        · obtain ⟨q, hq, hq2⟩ := h2
          rcases List.mem_cons.mp hq with rfl | hq3
          · exact absurd hq2 (by simpa using hsw)
          · exact Or.inr ⟨h1, ⟨q, hq3, hq2⟩, h3⟩

theorem selfKeyMem_attributeRow (cd : Nat) (tn : String)
    (mapTns : List (Nat × List String)) (acc : List (Nat × List Nat))
    (hself : SelfKeyMem acc) : SelfKeyMem (attributeRow cd tn mapTns acc) := by
  induction mapTns generalizing acc with
  | nil => exact hself
  | cons e rest ih =>
    rw [attributeRow_cons]
    exact ih _ (selfKeyMem_attributeTns cd tn e.1 e.2 acc hself)

theorem lkMem_attributeRow (cd : Nat) (tn : String)
    (mapTns : List (Nat × List String)) (acc : List (Nat × List Nat))
    (hself : SelfKeyMem acc) (r c : Nat) :
    lkMem (attributeRow cd tn mapTns acc) r c ↔
      lkMem acc r c ∨
        ∃ e ∈ mapTns, e.1 = r ∧ (∃ p ∈ e.2, strStartsWith tn p = true) ∧
          (c = cd ∨ c = r) := by
  induction mapTns generalizing acc with
  | nil => simp [attributeRow]
  | cons e rest ih =>
    rw [attributeRow_cons]
    rw [ih (attributeTns cd tn e.1 e.2 acc)
      (selfKeyMem_attributeTns cd tn e.1 e.2 acc hself)]
    rw [lkMem_attributeTns cd tn e.1 e.2 acc hself r c]
    constructor
    · rintro ((h1 | ⟨h1, h2, h3⟩) | ⟨f, hf, h1, h2, h3⟩)
      · exact Or.inl h1
      · exact Or.inr ⟨e, List.mem_cons_self _ _, h1, h2, by rw [← h1]; exact h3⟩
      · exact Or.inr ⟨f, List.mem_cons.mpr (Or.inr hf), h1, h2, h3⟩
    · rintro (h1 | ⟨f, hf, h1, h2, h3⟩)
      · exact Or.inl (Or.inl h1)
      · rcases List.mem_cons.mp hf with rfl | hf2
        · exact Or.inl (Or.inr ⟨h1, h2, by rw [h1]; exact h3⟩)
        · exact Or.inr ⟨f, hf2, h1, h2, h3⟩

theorem lkMem_buildChildren (qds : List (Nat × String))
    (mapTns : List (Nat × List String)) (r c : Nat) :
    lkMem (buildChildren qds mapTns) r c ↔
      ∃ row ∈ qds, ∃ e ∈ mapTns, e.1 = r ∧
        (∃ p ∈ e.2, strStartsWith row.2 p = true) ∧ (c = row.1 ∨ c = r) := by
  have haux : ∀ (acc : List (Nat × List Nat)), SelfKeyMem acc →
      (lkMem (qds.foldl (fun acc row => attributeRow row.1 row.2 mapTns acc) acc) r c ↔
        lkMem acc r c ∨
          ∃ row ∈ qds, ∃ e ∈ mapTns, e.1 = r ∧
            (∃ p ∈ e.2, strStartsWith row.2 p = true) ∧ (c = row.1 ∨ c = r)) ∧
      SelfKeyMem (qds.foldl (fun acc row => attributeRow row.1 row.2 mapTns acc) acc) := by
    induction qds with
    | nil =>
      intro acc hself
      simp only [List.foldl_nil]
      exact ⟨by simp, hself⟩
    | cons row rest ih =>
      intro acc hself
      rw [List.foldl_cons]
      have hselfrow := selfKeyMem_attributeRow row.1 row.2 mapTns acc hself
      obtain ⟨hiff, hself2⟩ := ih (attributeRow row.1 row.2 mapTns acc) hselfrow
      refine ⟨?_, hself2⟩
      rw [hiff, lkMem_attributeRow row.1 row.2 mapTns acc hself r c]
      constructor
      · rintro ((h1 | ⟨e, he, h1, h2, h3⟩) | ⟨row2, hrow2, hrest⟩)
        · exact Or.inl h1
        · exact Or.inr ⟨row, List.mem_cons_self _ _, e, he, h1, h2, h3⟩
        · exact Or.inr ⟨row2, List.mem_cons.mpr (Or.inr hrow2), hrest⟩
      · rintro (h1 | ⟨row2, hrow2, hrest⟩)
        · exact Or.inl (Or.inl h1)
        · rcases List.mem_cons.mp hrow2 with rfl | hrow3
          · exact Or.inl (Or.inr hrest)
          · exact Or.inr ⟨row2, hrow3, hrest⟩
  have h0 := (haux [] (fun e he => by simp at he)).1
  unfold buildChildren
  rw [h0]
  constructor
  · rintro (h1 | h1)
    · exact absurd h1 (lkMem_empty r c)
    · exact h1
  · intro h1
    exact Or.inr h1

theorem lookupList_map_dedup (m : List (Nat × List Nat)) (r : Nat) :
    lookupList (m.map (fun e => (e.1, e.2.dedup))) r =
      (lookupList m r).map List.dedup := by
  induction m with
  | nil => simp [lookupList]
  | cons e rest ih =>
    obtain ⟨a, vs⟩ := e
    by_cases har : a = r
    · subst har
      simp [lookupList]
    · simp [lookupList, har, ih]

/-! ## Membership characterization of the computed closures -/

theorem mem_treeNumbersAll (db : TreeDb) (ids : List Nat) (q : String) :
    q ∈ treeNumbersAll db ids ↔ ∃ dd, dd ∈ ids ∧ (dd, q) ∈ db := by
  unfold treeNumbersAll queryTns
  rw [List.mem_dedup]
  simp only [List.mem_map, List.mem_filter]
  constructor
  · rintro ⟨⟨a, b⟩, ⟨hm, hc⟩, rfl⟩
    exact ⟨a, by simpa using hc, hm⟩
  · rintro ⟨dd, hdd, hm⟩
    exact ⟨(dd, q), ⟨hm, by simpa using hdd⟩, rfl⟩

theorem mem_queryDescs (db : TreeDb) (tna : List String) (row : Nat × String) :
    row ∈ queryDescs db tna ↔
      row ∈ db ∧ ∃ q ∈ tna, strStartsWith row.2 q = true := by
  unfold queryDescs
  simp [List.mem_filter]

theorem closureMem_eq_lkMem (db : TreeDb) (ids : List Nat) (r c : Nat) :
    closureMem db ids r c = true ↔
      lkMem (buildChildren (queryDescs db (treeNumbersAll db ids))
        (mapDescriptorTns db ids)) r c := by
  unfold closureMem mapDescriptorChildren lkMem
  rw [lookupList_map_dedup]
  cases h : lookupList (buildChildren (queryDescs db (treeNumbersAll db ids))
      (mapDescriptorTns db ids)) r with
  | none => simp
  | some vs => simp [List.elem_iff, List.mem_dedup]

/-- C1 (amended): for every taxonomy store, requested root-id set and pair
of descriptors, the closure computed during study search contains `c`
under root `r` iff `r` was requested and some tree number of `c` has some
tree number of `r` as a RAW string prefix — not a path-segment-boundary
prefix: the `LIKE 'tn%'` scan and the `str.startswith` attribution match
plain string prefixes, so `"C041.200"` does count as a descendant of path
`"C04"`. -/
theorem closureMem_iff_raw_string_match (db : TreeDb) (ids : List Nat) (r c : Nat) :
    closureMem db ids r c = true ↔
      (r ∈ ids ∧ ∃ p ∈ treeNumbersOf db r, ∃ t ∈ treeNumbersOf db c,
        strStartsWith t p = true) := by
  rw [closureMem_eq_lkMem, lkMem_buildChildren]
  constructor
  · rintro ⟨⟨cd, tn⟩, hrow, ⟨e1, e2⟩, he, h1, ⟨p, hp, hsw⟩, h3⟩
    simp only at h1 hp h3
    subst h1
    rw [mem_mapDescriptorTns] at he
    obtain ⟨hcont, he2, -⟩ := he
    subst he2
    rw [mem_queryDescs] at hrow
    obtain ⟨hdb, -⟩ := hrow
    refine ⟨by simpa using hcont, ?_⟩
    rcases h3 with rfl | rfl
    · exact ⟨p, hp, tn, (mem_treeNumbersOf db c tn).mpr hdb, hsw⟩
    · exact ⟨p, hp, p, hp, strStartsWith_refl p⟩
  · rintro ⟨hr, p, hp, t, ht, hsw⟩
    refine ⟨(c, t), ?_, (r, treeNumbersOf db r), ?_, rfl, ⟨p, hp, hsw⟩, Or.inl rfl⟩
    · rw [mem_queryDescs]
      refine ⟨(mem_treeNumbersOf db c t).mp ht, p, ?_, hsw⟩
      rw [mem_treeNumbersAll]
      exact ⟨r, hr, (mem_treeNumbersOf db r p).mp hp⟩
    · rw [mem_mapDescriptorTns]
      exact ⟨by simpa using hr, rfl, List.ne_nil_of_mem hp⟩

/-- C1 (counterexample): in spec §8 Scenario 2 — root descriptor `1` with
path `"C04"`, descriptor `3` with only path `"C041.200"` — the computed
closure of root `1` DOES contain descriptor `3`, although no tree number
of `3` is a path-segment-boundary extension of any tree number of the
root; the claimed "exactly the segment-boundary descendants" is false on
the code. -/
theorem closure_includes_non_segment_descendant :
    closureMem dbScenario2 [1] 1 3 = true ∧
      ((treeNumbersOf dbScenario2 1).all (fun p =>
        (treeNumbersOf dbScenario2 3).all (fun t => !segBoundaryMatch p t))) = true := by
  exact ⟨by decide, by decide⟩


/-! ## Unknown taxonomy roots (C5) -/

theorem selfKeyMem_buildChildren (qds : List (Nat × String))
    (mapTns : List (Nat × List String)) : SelfKeyMem (buildChildren qds mapTns) := by
  unfold buildChildren
  have haux : ∀ acc, SelfKeyMem acc →
      SelfKeyMem (qds.foldl (fun acc row => attributeRow row.1 row.2 mapTns acc) acc) := by
    induction qds with
    | nil => intro acc h; simpa using h
    | cons row rest ih =>
      intro acc h
      rw [List.foldl_cons]
      exact ih _ (selfKeyMem_attributeRow row.1 row.2 mapTns acc h)
  exact haux [] (fun e he => by simp at he)

/-- C5 (amended): a root id with no tree numbers gets NO entry in
`map_descriptor_children` — its filter group is silently dropped rather
than kept as an empty closure; only when no requested root has any tree
number does the search return the empty list (and it never errors on
unknown roots). -/
theorem unknown_root_group_dropped (tdb : TreeDb) (ids : List Nat) (r : Nat)
    (db : List StudyRec) (p : SearchParams) :
    (treeNumbersOf tdb r = [] →
      lookupList (mapDescriptorChildren tdb ids) r = none) ∧
    ((∀ d ∈ ids, treeNumbersOf tdb d = []) →
      resolveSearch tdb db ids p true = Except.ok []) := by
  constructor
  · intro hz
    cases h : lookupList (mapDescriptorChildren tdb ids) r with
    | none => rfl
    | some vs =>
      exfalso
      unfold mapDescriptorChildren at h
      rw [lookupList_map_dedup] at h
      obtain ⟨vs2, hlk, -⟩ := Option.map_eq_some'.mp h
      have hrr : r ∈ vs2 :=
        selfKeyMem_buildChildren _ _ (r, vs2) (lookupList_some_mem hlk)
      have hmem : lkMem (buildChildren (queryDescs tdb (treeNumbersAll tdb ids))
          (mapDescriptorTns tdb ids)) r r := ⟨vs2, hlk, hrr⟩
      rw [lkMem_buildChildren] at hmem
      obtain ⟨row, -, ⟨e1, e2⟩, he, h1, ⟨q, hq, -⟩, -⟩ := hmem
      simp only at h1 hq
      subst h1
      rw [mem_mapDescriptorTns] at he
      obtain ⟨-, he2, hne⟩ := he
      rw [he2, hz] at hne
      exact hne rfl
  · intro hall
    have htna : treeNumbersAll tdb ids = [] := by
      rw [List.eq_nil_iff_forall_not_mem]
      intro q hq
      obtain ⟨dd, hdd, hmem⟩ := (mem_treeNumbersAll tdb ids q).mp hq
      have : q ∈ treeNumbersOf tdb dd := (mem_treeNumbersOf tdb dd q).mpr hmem
      rw [hall dd hdd] at this
      simp at this
    unfold resolveSearch
    rw [if_pos rfl, if_pos htna]

/-- C5 (counterexample): with known root `1` (path `"A01"`) and unknown
root `2` requested together, `resolve_search` still returns the study
matching root `1` — the unknown root's group imposes no constraint at all
(it has no entry in `map_descriptor_children`), instead of an empty
closure making the search match nothing. -/
theorem unknown_root_not_empty_closure :
    resolveSearch tdbKnown1 [studyDesc1] [1, 2] noSearchParams true =
      Except.ok [studyDesc1] ∧
    lookupList (mapDescriptorChildren tdbKnown1 [1, 2]) 2 = none := by
  exact ⟨by rfl, by rfl⟩

/-- C5 (witness for the amended theorem). -/
theorem unknown_root_group_dropped_witness :
    lookupList (mapDescriptorChildren tdbKnown1 [1, 2]) 2 = none ∧
    resolveSearch tdbKnown1 [] [5] noSearchParams true = Except.ok [] := by
  exact ⟨(unknown_root_group_dropped tdbKnown1 [1, 2] 2 [] noSearchParams).1 (by decide),
    (unknown_root_group_dropped tdbKnown1 [5] 0 [] noSearchParams).2 (by decide)⟩

/-! ## The AND-across-groups / OR-within-group search semantics (C2) -/

theorem searchRows_cons (t : StudyRec) (rest : List StudyRec) :
    searchRows (t :: rest) =
      t.descriptors.map (fun d => ⟨t, d, none⟩) ++ searchRows rest := by
  unfold searchRows
  rw [List.flatMap_cons]

theorem searchRows_filter_eq (db : List StudyRec) (s : StudyRec)
    (hnd : (db.map (fun x => x.study_id)).Nodup) (hs : s ∈ db) :
    (searchRows db).filter (fun r => r.s.study_id = s.study_id) =
      s.descriptors.map (fun d => ⟨s, d, none⟩) := by
  induction db with
  | nil => simp at hs
  | cons t rest ih =>
    rw [List.map_cons, List.nodup_cons] at hnd
    rw [searchRows_cons, List.filter_append]
    rcases List.mem_cons.mp hs with rfl | hs2
    · have h1 : (s.descriptors.map (fun d => (⟨s, d, none⟩ : SRow))).filter
          (fun r => r.s.study_id = s.study_id) =
          s.descriptors.map (fun d => ⟨s, d, none⟩) := by
        rw [List.filter_eq_self]
        intro r hr
        obtain ⟨d, -, rfl⟩ := List.mem_map.mp hr
        simp
      have h2 : (searchRows rest).filter (fun r => r.s.study_id = s.study_id) = [] := by
        rw [List.filter_eq_nil_iff]
        intro r hr
        obtain ⟨u, hu, hr2⟩ := List.mem_flatMap.mp hr
        obtain ⟨d, -, rfl⟩ := List.mem_map.mp hr2
        simp only [decide_eq_true_eq]
        intro hc
        exact hnd.1 (List.mem_map.mpr ⟨u, hu, hc⟩)
      rw [h1, h2, List.append_nil]
    · have h1 : (t.descriptors.map (fun d => (⟨t, d, none⟩ : SRow))).filter
          (fun r => r.s.study_id = s.study_id) = [] := by
        rw [List.filter_eq_nil_iff]
        intro r hr
        obtain ⟨d, -, rfl⟩ := List.mem_map.mp hr
        simp only [decide_eq_true_eq]
        intro hc
        exact hnd.1 (List.mem_map.mpr ⟨s, hs2, hc.symm⟩)
      rw [h1, List.nil_append]
      exact ih hnd.2 hs2

theorem searchGroupHaving_mem (db : List StudyRec) (groups : List (List Nat))
    (s : StudyRec) (hnd : (db.map (fun x => x.study_id)).Nodup)
    (hg : groups ≠ []) (hs : s ∈ db) :
    s ∈ searchGroupHaving (searchRows db) groups ↔
      ∀ g ∈ groups, ∃ d, d ∈ s.descriptors ∧ d ∈ g := by
  unfold searchGroupHaving
  rw [List.mem_filterMap]
  constructor
  · rintro ⟨sid, hsid, heq⟩
    by_cases hcond : (groups.all (fun g =>
        (((searchRows db).filter (fun r => r.s.study_id = sid)).map
          (fun r => r.d)).any (fun dsc => g.contains dsc))) = true
    · rw [if_pos hcond] at heq
      obtain ⟨r0, hr0, hr0s⟩ := Option.map_eq_some'.mp heq
      have hr0mem : r0 ∈ (searchRows db).filter (fun r => r.s.study_id = sid) :=
        List.mem_of_mem_head? (by rw [hr0]; rfl)
      have hr0sid : r0.s.study_id = sid := by
        have := (List.mem_filter.mp hr0mem).2
        simpa using this
      have hsid2 : sid = s.study_id := by rw [← hr0sid, hr0s]
      subst hsid2
      rw [searchRows_filter_eq db s hnd hs] at hcond
      intro g hgmem
      have hcg := (List.all_eq_true.mp hcond) g hgmem
      obtain ⟨x, hx, hx2⟩ := List.any_eq_true.mp hcg
      obtain ⟨r1, hr1, hre⟩ := List.mem_map.mp hx
      obtain ⟨d, hd, rfl⟩ := List.mem_map.mp hr1
      have hre2 : d = x := hre
      subst hre2
      exact ⟨d, hd, by simpa using hx2⟩
    · rw [if_neg hcond] at heq
      cases heq
  · intro hall
    obtain ⟨g0, hg0⟩ := List.exists_mem_of_ne_nil groups hg
    obtain ⟨d0, hd0, -⟩ := hall g0 hg0
    refine ⟨s.study_id, ?_, ?_⟩
    · rw [List.mem_dedup]
      exact List.mem_map.mpr ⟨⟨s, d0, none⟩,
        List.mem_flatMap.mpr ⟨s, hs, List.mem_map.mpr ⟨d0, hd0, rfl⟩⟩, rfl⟩
    · rw [searchRows_filter_eq db s hnd hs]
      have hcond : (groups.all (fun g =>
          ((s.descriptors.map (fun d => (⟨s, d, none⟩ : SRow))).map
            (fun r => r.d)).any (fun dsc => g.contains dsc))) = true := by
        rw [List.all_eq_true]
        intro g hgmem
        obtain ⟨d, hd, hd2⟩ := hall g hgmem
        rw [List.any_eq_true]
        exact ⟨d, List.mem_map.mpr ⟨⟨s, d, none⟩,
          List.mem_map.mpr ⟨d, hd, rfl⟩, rfl⟩, by simpa using hd2⟩
      rw [if_pos hcond]
      cases hdesc : s.descriptors with
      | nil => rw [hdesc] at hd0; simp at hd0
      | cons d1 ds => simp

/-- C2: with multiple descriptor groups supplied (and no other search
filters), a study appears in the `resolve_search` result iff for EVERY
group its own descriptor-id set shares at least one element with the
group (AND across groups, OR within a group) — realised by the
`GROUP BY study_id` / `array_agg && group` HAVING clause. -/
theorem search_multi_group_semantics (db : List StudyRec)
    (groups : List (List Nat)) (s : StudyRec)
    (hnd : (db.map (fun x => x.study_id)).Nodup)
    (hg : groups ≠ []) (hs : s ∈ db) :
    ∃ out, searchStudyQuery db noSearchParams groups = Except.ok out ∧
      (s ∈ out ↔ ∀ g ∈ groups, ∃ d, d ∈ s.descriptors ∧ d ∈ g) := by
  exact ⟨searchGroupHaving (searchRows db) groups, rfl,
    searchGroupHaving_mem db groups s hnd hg hs⟩

/-- C2 (witness). -/
theorem search_multi_group_semantics_witness :
    ∃ out, searchStudyQuery [studyDesc1] noSearchParams [[1, 9]] = Except.ok out ∧
      (studyDesc1 ∈ out ↔ ∀ g ∈ [[1, 9]], ∃ d, d ∈ studyDesc1.descriptors ∧ d ∈ g) := by
  exact search_multi_group_semantics [studyDesc1] [[1, 9]] studyDesc1
    (by decide) (by decide) (by decide)


/-! ## The one-sided age interval (C3) and the count resolver (C9) -/

/-- C3 (code bug): supplying only one side of the eligibility age interval
makes the filter raise `TypeError` (`None * 31536000`) instead of
degrading to a one-sided inequality — in `_apply_query_filters` for an
`age_end`-only and an `age_beg`-only interval, and equally in
`resolve_search`'s own copy of the age filter. -/
theorem one_sided_age_filter_raises :
    applyQueryFilters [studyOne] paramsAgeEndOnly distZero =
      Except.error "TypeError: unsupported operand type for *: NoneType and int" ∧
    applyQueryFilters [studyOne] paramsAgeBegOnly distZero =
      Except.error "TypeError: unsupported operand type for *: NoneType and int" ∧
    searchAges ⟨none, none, none, none, some 65⟩ (searchRows [studyDesc1]) =
      Except.error "TypeError: unsupported operand type for *: NoneType and int" := by
  exact ⟨rfl, rfl, rfl⟩

/-- C9 (counterexample): an invocation of the count resolver with an
`age_end`-only age interval raises instead of returning an integer. -/
theorem count_resolver_can_raise :
    resolveCount [studyOne] paramsAgeEndOnly distZero =
      Except.error "TypeError: unsupported operand type for *: NoneType and int" := by
  rfl

/-- C9 (amended): on every invocation whose filter composition does not
raise (the one-sided-age TypeError), the count resolver returns a
non-negative integer, and its `one_or_none` guard maps an absent result
row to `0` rather than `None` or an error. -/
theorem count_resolver_nonnegative (db : List StudyRec) (p : QueryFilterParams)
    (distFn : Int × Int → Int × Int → Int) (rows : List QRow)
    (h : applyQueryFilters db p distFn = Except.ok rows) :
    (∃ n, resolveCount db p distFn = Except.ok n ∧ 0 ≤ n) ∧
    countFromResult none = 0 := by
  refine ⟨⟨countDistinctStudyIds rows, ?_, Int.natCast_nonneg _⟩, rfl⟩
  unfold resolveCount
  rw [h]
  rfl

/-- C9 (witness for the amended theorem). -/
theorem count_resolver_nonnegative_witness :
    (∃ n, resolveCount [studyFallbackOnly] noFilters distZero = Except.ok n ∧ 0 ≤ n) ∧
    countFromResult none = 0 :=
  count_resolver_nonnegative [studyFallbackOnly] noFilters distZero
    [⟨studyFallbackOnly, none, none, none⟩] rfl

/-! ## The order-by step (C8) -/

/-- C8 (counterexample): `resolve_filter` accepts the order-by name
`"eligibility"` — a relationship, not a scalar column — without any
error: the name is resolved with a bare `getattr`, not validated against
the scalar-column whitelist. -/
theorem order_by_accepts_relationship :
    resolveFilterOrderStep id (some "eligibility") false =
      Except.ok (some ("eligibility", false)) ∧
    modelStudyScalarColumns.contains "eligibility" = false := by
  exact ⟨rfl, rfl⟩

/-- C8 (amended): the order-by name is snake-cased and resolved by plain
attribute lookup on the study model: a name that is NO attribute raises
`AttributeError` (an error does surface, but no scalar-column whitelist is
consulted), while every model attribute — including every relationship,
none of which is a scalar column — is accepted and ordering is applied. -/
theorem order_by_getattr_semantics (snake : String → String) (ob : String)
    (dsc : Bool) (h : ob ≠ "") :
    (resolveFilterOrderStep snake (some ob) dsc =
      if modelStudyAttributes.contains (snake ob) then
        Except.ok (some (snake ob, dsc))
      else Except.error "AttributeError: type object ModelStudy has no attribute") ∧
    (modelStudyRelationships.all (fun a =>
      modelStudyAttributes.contains a && !modelStudyScalarColumns.contains a)) = true := by
  constructor
  · show (if ob = "" then Except.ok none
      else
        if modelStudyAttributes.contains (snake ob) = true then
          Except.ok (some (snake ob, dsc))
        else
          Except.error "AttributeError: type object ModelStudy has no attribute") = _
    rw [if_neg h]
  · decide

/-- C8 (witness for the amended theorem). -/
theorem order_by_getattr_semantics_witness :
    (resolveFilterOrderStep id (some "startDate") true =
      if modelStudyAttributes.contains (id "startDate") then
        Except.ok (some (id "startDate", true))
      else Except.error "AttributeError: type object ModelStudy has no attribute") ∧
    (modelStudyRelationships.all (fun a =>
      modelStudyAttributes.contains a && !modelStudyScalarColumns.contains a)) = true :=
  order_by_getattr_semantics id "startDate" true (by decide)


/-! ## Distinct-count aggregation (C7) -/

theorem mem_insertDescByCount {α : Type} (x y : α × Nat)
    (l : List (α × Nat)) :
    y ∈ insertDescByCount x l ↔ y = x ∨ y ∈ l := by
  induction l with
  | nil => simp [insertDescByCount]
  | cons z rest ih =>
    unfold insertDescByCount
    by_cases h : z.2 < x.2
    · rw [if_pos h]
      simp [List.mem_cons]
    · rw [if_neg h]
      rw [List.mem_cons, ih, List.mem_cons]
      tauto

theorem mem_sortDescByCount {α : Type} (x : α × Nat)
    (l : List (α × Nat)) :
    x ∈ sortDescByCount l ↔ x ∈ l := by
  induction l with
  | nil => simp [sortDescByCount]
  | cons z rest ih =>
    unfold sortDescByCount
    rw [List.foldr_cons]
    have : sortDescByCount rest = rest.foldr insertDescByCount [] := rfl
    rw [mem_insertDescByCount, ← this, ih, List.mem_cons]

theorem mem_countryRowsBase (db : List StudyRec) (row : Nat × Option String) :
    row ∈ db.flatMap
        (fun s => s.facilities_canonical.map (fun f => (s.study_id, f.country))) ↔
      ∃ s ∈ db, ∃ f ∈ s.facilities_canonical, row = (s.study_id, f.country) := by
  rw [List.mem_flatMap]
  constructor
  · rintro ⟨s, hs, hrow⟩
    obtain ⟨f, hf, hfe⟩ := List.mem_map.mp hrow
    exact ⟨s, hs, f, hf, hfe.symm⟩
  · rintro ⟨s, hs, f, hf, rfl⟩
    exact ⟨s, hs, List.mem_map.mpr ⟨f, hf, rfl⟩⟩

theorem mem_countryRows (db : List StudyRec) (study_ids : List Nat)
    (row : Nat × Option String) :
    row ∈ countryRows db study_ids ↔
      ((∃ s ∈ db, ∃ f ∈ s.facilities_canonical, row = (s.study_id, f.country)) ∧
       (truthyL study_ids = true → study_ids.contains row.1 = true)) := by
  unfold countryRows
  cases ht : truthyL study_ids with
  | true =>
    simp only [if_true]
    rw [List.mem_filter, mem_countryRowsBase]
    constructor
    · rintro ⟨h1, h2⟩
      exact ⟨h1, fun _ => h2⟩
    · rintro ⟨h1, h2⟩
      exact ⟨h1, h2 (by trivial)⟩
  | false =>
    simp only [Bool.false_eq_true, if_false]
    rw [mem_countryRowsBase]
    constructor
    · intro h1
      exact ⟨h1, fun hc => nomatch hc⟩
    · rintro ⟨h1, -⟩
      exact h1

theorem countryRows_fst_toFinset (db : List StudyRec) (study_ids : List Nat)
    (c : Option String) :
    (((countryRows db study_ids).filter (fun r => r.2 = c)).map
        (fun r => r.1)).toFinset =
      ((db.filter (fun s =>
          (!truthyL study_ids || study_ids.contains s.study_id) &&
          s.facilities_canonical.any (fun f => f.country == c))).map
        (fun s => s.study_id)).toFinset := by
  ext a
  rw [List.mem_toFinset, List.mem_toFinset, List.mem_map, List.mem_map]
  constructor
  · rintro ⟨⟨sid, co⟩, hmem2, ha⟩
    rw [List.mem_filter] at hmem2
    obtain ⟨hmem3, hco⟩ := hmem2
    rw [mem_countryRows] at hmem3
    obtain ⟨⟨s, hs, f, hf, heq⟩, hid⟩ := hmem3
    rw [Prod.mk.injEq] at heq
    obtain ⟨h1, h2⟩ := heq
    have hco2 : co = c := by simpa using hco
    refine ⟨s, ?_, by rw [← h1]; exact ha⟩
    rw [List.mem_filter]
    refine ⟨hs, Bool.and_eq_true_iff.mpr ⟨?_, ?_⟩⟩
    · cases htr : truthyL study_ids with
      | false => rfl
      | true =>
        simp only [Bool.not_true, Bool.false_or]
        have := hid htr
        rw [h1] at this
        exact this
    · apply List.any_eq_true.mpr
      refine ⟨f, hf, ?_⟩
      rw [beq_iff_eq, ← h2, hco2]
  · rintro ⟨s, hsf, ha⟩
    rw [List.mem_filter] at hsf
    obtain ⟨hs, hcond⟩ := hsf
    obtain ⟨hid, hany⟩ := Bool.and_eq_true_iff.mp hcond
    obtain ⟨f, hf, hfc⟩ := List.any_eq_true.mp hany
    rw [beq_iff_eq] at hfc
    refine ⟨(s.study_id, f.country), ?_, ha⟩
    rw [List.mem_filter]
    constructor
    · rw [mem_countryRows]
      refine ⟨⟨s, hs, f, hf, rfl⟩, ?_⟩
      intro htr
      rw [htr] at hid
      simpa using hid
    · simpa using hfc

theorem bnot_or_eq_true (c b : Bool) :
    (!c || b) = true ↔ (c = true → b = true) := by
  cases c <;> simp

theorem exists_mem_ite_filter {α : Type} (c : Bool) (q : α → Bool) (l : List α)
    (P : α → Prop) :
    (∃ x ∈ (if c = true then l.filter q else l), P x) ↔
      ∃ x ∈ l, P x ∧ (c = true → q x = true) := by
  cases c with
  | false =>
    simp only [Bool.false_eq_true, if_false]
    constructor
    · rintro ⟨x, hx, hP⟩
      exact ⟨x, hx, hP, fun h => nomatch h⟩
    · rintro ⟨x, hx, hP, -⟩
      exact ⟨x, hx, hP⟩
  | true =>
    simp only [if_true]
    constructor
    · rintro ⟨x, hx, hP⟩
      rw [List.mem_filter] at hx
      exact ⟨x, hx.1, hP, fun _ => hx.2⟩
    · rintro ⟨x, hx, hP, hq⟩
      exact ⟨x, List.mem_filter.mpr ⟨hx, hq (by trivial)⟩, hP⟩

theorem exists_mem_fStepIds (p : CountStudiesByFacilityParams) (rows : List FRow)
    (P : FRow → Prop) :
    (∃ r ∈ fStepIds p rows, P r) ↔
      ∃ r ∈ rows, P r ∧
        (truthyL p.study_ids = true →
          p.study_ids.contains r.s.study_id = true) := by
  unfold fStepIds
  exact exists_mem_ite_filter _ _ _ _

theorem exists_mem_fStepIdsAlways (p : CountStudiesByFacilityParams)
    (rows : List FRow) (P : FRow → Prop) :
    (∃ r ∈ fStepIdsAlways p rows, P r) ↔
      ∃ r ∈ rows, P r ∧ p.study_ids.contains r.s.study_id = true := by
  unfold fStepIdsAlways
  constructor
  · rintro ⟨r, hr, hP⟩
    rw [List.mem_filter] at hr
    exact ⟨r, hr.1, hP, hr.2⟩
  · rintro ⟨r, hr, hP, hq⟩
    exact ⟨r, List.mem_filter.mpr ⟨hr, hq⟩, hP⟩

theorem exists_mem_fStepStatuses (p : CountStudiesByFacilityParams)
    (rows : List FRow) (P : FRow → Prop) :
    (∃ r ∈ fStepStatuses p rows, P r) ↔
      ∃ r ∈ rows, P r ∧
        (truthyL p.overall_statuses = true →
          p.overall_statuses.contains r.s.overall_status = true) := by
  unfold fStepStatuses
  exact exists_mem_ite_filter _ _ _ _

theorem exists_mem_fStepCities (p : CountStudiesByFacilityParams)
    (rows : List FRow) (P : FRow → Prop) :
    (∃ r ∈ fStepCities p rows, P r) ↔
      ∃ r ∈ rows, P r ∧
        (truthyL p.cities = true →
          optTest r.f.locality p.cities.contains = true) := by
  unfold fStepCities
  exact exists_mem_ite_filter _ _ _ _

theorem exists_mem_fStepStates (p : CountStudiesByFacilityParams)
    (rows : List FRow) (P : FRow → Prop) :
    (∃ r ∈ fStepStates p rows, P r) ↔
      ∃ r ∈ rows, P r ∧
        (truthyL p.states = true →
          optTest r.f.administrative_area_level_1 p.states.contains = true) := by
  unfold fStepStates
  exact exists_mem_ite_filter _ _ _ _

theorem exists_mem_fStepCountries (p : CountStudiesByFacilityParams)
    (rows : List FRow) (P : FRow → Prop) :
    (∃ r ∈ fStepCountries p rows, P r) ↔
      ∃ r ∈ rows, P r ∧
        (truthyL p.countries = true →
          optTest r.f.country p.countries.contains = true) := by
  unfold fStepCountries
  exact exists_mem_ite_filter _ _ _ _

theorem exists_mem_fStepLocation (p : CountStudiesByFacilityParams)
    (rows : List FRow) (P : FRow → Prop) :
    (∃ r ∈ fStepLocation p rows, P r) ↔
      ∃ r ∈ rows, P r ∧
        (truthyL p.cities = true →
          optTest r.f.locality p.cities.contains = true) ∧
        (truthyL p.states = true →
          optTest r.f.administrative_area_level_1 p.states.contains = true) ∧
        (truthyL p.countries = true →
          optTest r.f.country p.countries.contains = true) := by
  unfold fStepLocation
  cases hor : (truthyL p.cities || truthyL p.states || truthyL p.countries) with
  | false =>
    rw [Bool.or_eq_false_iff, Bool.or_eq_false_iff] at hor
    obtain ⟨⟨h1a, h1b⟩, h2⟩ := hor
    simp only [Bool.false_eq_true, if_false]
    constructor
    · rintro ⟨r, hr, hP⟩
      refine ⟨r, hr, hP, ?_, ?_, ?_⟩
      · intro hx
        rw [h1a] at hx
        exact nomatch hx
      · intro hx
        rw [h1b] at hx
        exact nomatch hx
      · intro hx
        rw [h2] at hx
        exact nomatch hx
    · rintro ⟨r, hr, hP, -⟩
      exact ⟨r, hr, hP⟩
  | true =>
    simp only [if_true]
    refine Iff.trans (exists_mem_fStepCountries p _ _) ?_
    refine Iff.trans (exists_mem_fStepStates p _ _) ?_
    refine Iff.trans (exists_mem_fStepCities p _ _) ?_
    constructor
    · rintro ⟨r, hr, ⟨⟨hP, hk⟩, hs⟩, hc⟩
      exact ⟨r, hr, hP, hc, hs, hk⟩
    · rintro ⟨r, hr, hP, hc, hs, hk⟩
      exact ⟨r, hr, ⟨⟨hP, hk⟩, hs⟩, hc⟩

theorem exists_mem_fStepGeo (p : CountStudiesByFacilityParams)
    (distFn : Int × Int → Int × Int → Int) (rows : List FRow) (P : FRow → Prop) :
    (∃ r ∈ fStepGeo p distFn rows, P r) ↔
      ∃ r ∈ rows, P r ∧
        ((truthyI p.current_location_longitude &&
          truthyI p.current_location_latitude &&
          truthyI p.distance_max_km) = true →
          distFn (p.current_location_longitude.getD 0,
                  p.current_location_latitude.getD 0) r.f.coordinates ≤
            p.distance_max_km.getD 0 * 1000) := by
  unfold fStepGeo
  refine Iff.trans (exists_mem_ite_filter _ _ _ _) ?_
  constructor
  · rintro ⟨r, hr, hP, hg⟩
    exact ⟨r, hr, hP, fun h => of_decide_eq_true (hg h)⟩
  · rintro ⟨r, hr, hP, hg⟩
    exact ⟨r, hr, hP, fun h => decide_eq_true (hg h)⟩

theorem exists_mem_fStepDescriptors (p : CountStudiesByFacilityParams)
    (rows : List FRow) (Q : FacilityRec → StudyRec → Prop) :
    (∃ r ∈ fStepDescriptors p rows, Q r.f r.s) ↔
      ∃ r ∈ rows, Q r.f r.s ∧
        (truthyL p.mesh_descriptor_ids = true →
          ∃ dd ∈ r.s.descriptors,
            p.mesh_descriptor_ids.contains dd = true) := by
  unfold fStepDescriptors
  cases ht : truthyL p.mesh_descriptor_ids with
  | false =>
    simp only [Bool.false_eq_true, if_false]
    constructor
    · rintro ⟨r, hr, hQ⟩
      exact ⟨r, hr, hQ, fun h => nomatch h⟩
    · rintro ⟨r, hr, hQ, -⟩
      exact ⟨r, hr, hQ⟩
  | true =>
    simp only [if_true]
    constructor
    · rintro ⟨r, hr, hQ⟩
      rw [List.mem_filter] at hr
      obtain ⟨hr1, hd⟩ := hr
      obtain ⟨r2, hr2m, hmap⟩ := List.mem_flatMap.mp hr1
      obtain ⟨dd, hdd, hre⟩ := List.mem_map.mp hmap
      subst hre
      refine ⟨r2, hr2m, hQ, fun _ => ⟨dd, hdd, ?_⟩⟩
      simpa [optTest] using hd
    · rintro ⟨r, hr, hQ, hex⟩
      obtain ⟨dd, hdd, hc⟩ := hex (by trivial)
      refine ⟨{ r with d := some dd }, ?_, hQ⟩
      refine List.mem_filter.mpr ⟨?_, ?_⟩
      · exact List.mem_flatMap.mpr ⟨r, hr, List.mem_map.mpr ⟨dd, hdd, rfl⟩⟩
      · simpa [optTest] using hc

theorem exists_mem_facilityJoinRows (db : List StudyRec) (P : FRow → Prop) :
    (∃ r ∈ facilityJoinRows db, P r) ↔
      ∃ s ∈ db, ∃ f ∈ s.facilities_canonical, P ⟨f, s, none⟩ := by
  unfold facilityJoinRows
  constructor
  · rintro ⟨r, hr, hP⟩
    obtain ⟨s, hs, hmap⟩ := List.mem_flatMap.mp hr
    obtain ⟨f, hf, hre⟩ := List.mem_map.mp hmap
    subst hre
    exact ⟨s, hs, f, hf, hP⟩
  · rintro ⟨s, hs, f, hf, hP⟩
    exact ⟨⟨f, s, none⟩,
      List.mem_flatMap.mpr ⟨s, hs, List.mem_map.mpr ⟨f, hf, rfl⟩⟩, hP⟩

theorem facilityGroup_toFinset (db : List StudyRec)
    (p : CountStudiesByFacilityParams) (distFn : Int × Int → Int × Int → Int)
    (fid : Nat) :
    (((facilityAggRows db p distFn).filter
        (fun r => r.f.facility_canonical_id = fid)).map
      (fun r => r.s.study_id)).toFinset =
    ((db.filter (fun s =>
        p.study_ids.contains s.study_id &&
        (!truthyL p.overall_statuses ||
          p.overall_statuses.contains s.overall_status) &&
        (!truthyL p.mesh_descriptor_ids ||
          s.descriptors.any p.mesh_descriptor_ids.contains) &&
        s.facilities_canonical.any (fun f =>
          f.facility_canonical_id == fid &&
          (!truthyL p.cities || optTest f.locality p.cities.contains) &&
          (!truthyL p.states ||
            optTest f.administrative_area_level_1 p.states.contains) &&
          (!truthyL p.countries || optTest f.country p.countries.contains) &&
          (!(truthyI p.current_location_longitude &&
              truthyI p.current_location_latitude &&
              truthyI p.distance_max_km) ||
            distFn (p.current_location_longitude.getD 0,
                    p.current_location_latitude.getD 0) f.coordinates ≤
              p.distance_max_km.getD 0 * 1000)))).map
      (fun s => s.study_id)).toFinset := by
  have key : ∀ a : Nat, (∃ r ∈ facilityAggRows db p distFn,
      r.f.facility_canonical_id = fid ∧ r.s.study_id = a) ↔
      ∃ s ∈ db, ∃ f ∈ s.facilities_canonical,
        (f.facility_canonical_id = fid ∧ s.study_id = a) ∧
        (truthyL p.mesh_descriptor_ids = true →
          ∃ dd ∈ s.descriptors, p.mesh_descriptor_ids.contains dd = true) ∧
        ((truthyI p.current_location_longitude &&
          truthyI p.current_location_latitude &&
          truthyI p.distance_max_km) = true →
          distFn (p.current_location_longitude.getD 0,
                  p.current_location_latitude.getD 0) f.coordinates ≤
            p.distance_max_km.getD 0 * 1000) ∧
        (truthyL p.cities = true →
          optTest f.locality p.cities.contains = true) ∧
        (truthyL p.states = true →
          optTest f.administrative_area_level_1 p.states.contains = true) ∧
        (truthyL p.countries = true →
          optTest f.country p.countries.contains = true) ∧
        (truthyL p.overall_statuses = true →
          p.overall_statuses.contains s.overall_status = true) ∧
        p.study_ids.contains s.study_id = true := by
    intro a
    unfold facilityAggRows
    refine Iff.trans (exists_mem_fStepDescriptors p _
      (fun fr sr => fr.facility_canonical_id = fid ∧ sr.study_id = a)) ?_
    refine Iff.trans (exists_mem_fStepGeo p distFn _ _) ?_
    refine Iff.trans (exists_mem_fStepLocation p _ _) ?_
    refine Iff.trans (exists_mem_fStepStatuses p _ _) ?_
    refine Iff.trans (exists_mem_fStepIdsAlways p _ _) ?_
    refine Iff.trans (exists_mem_fStepIds p _ _) ?_
    refine Iff.trans (exists_mem_facilityJoinRows _ _) ?_
    constructor
    · rintro ⟨s, hs, f, hf,
        ⟨⟨⟨⟨⟨⟨hQ, hdesc⟩, hgeo⟩, hcc, hsc, hkc⟩, hstat⟩, hids⟩, -⟩⟩
      exact ⟨s, hs, f, hf, hQ, hdesc, hgeo, hcc, hsc, hkc, hstat, hids⟩
    · rintro ⟨s, hs, f, hf, hQ, hdesc, hgeo, hcc, hsc, hkc, hstat, hids⟩
      exact ⟨s, hs, f, hf,
        ⟨⟨⟨⟨⟨⟨hQ, hdesc⟩, hgeo⟩, hcc, hsc, hkc⟩, hstat⟩, hids⟩, fun _ => hids⟩⟩
  ext a
  rw [List.mem_toFinset, List.mem_toFinset, List.mem_map, List.mem_map]
  constructor
  · rintro ⟨r, hrf, ha⟩
    rw [List.mem_filter] at hrf
    obtain ⟨s, hs, f, hf, ⟨hfe, hsid⟩, hdesc, hgeo, hcc, hsc, hkc, hstat, hids⟩ :=
      (key a).mp ⟨r, hrf.1, of_decide_eq_true hrf.2, ha⟩
    rw [Bool.and_eq_true_iff, Bool.and_eq_true_iff] at hgeo
    refine ⟨s, ?_, hsid⟩
    rw [List.mem_filter]
    refine ⟨hs, ?_⟩
    simp only [Bool.and_eq_true_iff, bnot_or_eq_true, List.any_eq_true,
      beq_iff_eq, decide_eq_true_eq]
    exact ⟨⟨⟨hids, hstat⟩, hdesc⟩, f, hf, ⟨⟨⟨⟨hfe, hcc⟩, hsc⟩, hkc⟩, hgeo⟩⟩
  · rintro ⟨s, hsf, hsid⟩
    rw [List.mem_filter] at hsf
    obtain ⟨hs, hbool⟩ := hsf
    simp only [Bool.and_eq_true_iff, bnot_or_eq_true, List.any_eq_true,
      beq_iff_eq, decide_eq_true_eq] at hbool
    obtain ⟨⟨⟨hids, hstat⟩, hdesc⟩, f, hf, ⟨⟨⟨⟨hfe, hcc⟩, hsc⟩, hkc⟩, hgeo⟩⟩ := hbool
    rw [← Bool.and_eq_true_iff, ← Bool.and_eq_true_iff] at hgeo
    obtain ⟨r, hrm, hr1, hr2⟩ :=
      (key a).mpr ⟨s, hs, f, hf, ⟨hfe, hsid⟩, hdesc, hgeo, hcc, hsc, hkc, hstat, hids⟩
    refine ⟨r, ?_, hr2⟩
    rw [List.mem_filter]
    exact ⟨hrm, decide_eq_true hr1⟩

theorem mem_truthyPagination {α : Type} (S : List α) (off lim : Option Nat)
    (x : α)
    (h : x ∈ (match lim with
              | some l =>
                if l ≠ 0 then
                  (match off with
                   | some o => if o ≠ 0 then S.drop o else S
                   | none => S).take l
                else
                  match off with
                  | some o => if o ≠ 0 then S.drop o else S
                  | none => S
              | none =>
                match off with
                | some o => if o ≠ 0 then S.drop o else S
                | none => S)) :
    x ∈ S := by
  cases lim with
  | none =>
    cases off with
    | none => exact h
    | some o =>
      have h2 : x ∈ (if o ≠ 0 then S.drop o else S) := h
      by_cases hz : o ≠ 0
      · rw [if_pos hz] at h2
        exact List.drop_subset _ _ h2
      · rw [if_neg hz] at h2
        exact h2
  | some l =>
    cases off with
    | none =>
      have h2 : x ∈ (if l ≠ 0 then S.take l else S) := h
      by_cases hz : l ≠ 0
      · rw [if_pos hz] at h2
        exact List.take_subset _ _ h2
      · rw [if_neg hz] at h2
        exact h2
    | some o =>
      have h2 : x ∈ (if l ≠ 0 then (if o ≠ 0 then S.drop o else S).take l
          else (if o ≠ 0 then S.drop o else S)) := h
      have h3 : x ∈ (if o ≠ 0 then S.drop o else S) := by
        by_cases hz : l ≠ 0
        · rw [if_pos hz] at h2
          exact List.take_subset _ _ h2
        · rw [if_neg hz] at h2
          exact h2
      by_cases hz : o ≠ 0
      · rw [if_pos hz] at h3
        exact List.drop_subset _ _ h3
      · rw [if_neg hz] at h3
        exact h3

theorem mem_resolveCountStudiesByFacility_sorted (db : List StudyRec)
    (p : CountStudiesByFacilityParams) (distFn : Int × Int → Int × Int → Int)
    (x : FacilityRec × Nat)
    (h : x ∈ resolveCountStudiesByFacility db p distFn) :
    x ∈ sortDescByCount (aggCountsByFacility (facilityAggRows db p distFn)) := by
  simp only [resolveCountStudiesByFacility] at h
  exact mem_truthyPagination _ p.offset p.limit x h

theorem mem_aggCountsByFacility (rows : List FRow) (fac : FacilityRec) (n : Nat)
    (h : (fac, n) ∈ aggCountsByFacility rows) :
    n = ((rows.filter (fun r =>
        r.f.facility_canonical_id = fac.facility_canonical_id)).map
      (fun r => r.s.study_id)).dedup.length := by
  unfold aggCountsByFacility at h
  obtain ⟨fid, -, hmap⟩ := List.mem_filterMap.mp h
  obtain ⟨r0, hr0, heq⟩ := Option.map_eq_some'.mp hmap
  rw [Prod.mk.injEq] at heq
  obtain ⟨hfac, hn⟩ := heq
  have hr0mem : r0 ∈ rows.filter (fun r => r.f.facility_canonical_id = fid) :=
    List.mem_of_mem_head? (Option.mem_def.mpr hr0)
  have hfid2 : fid = fac.facility_canonical_id := by
    rw [← hfac]
    exact (of_decide_eq_true (List.mem_filter.mp hr0mem).2).symm
  rw [← hn, hfid2]

theorem exists_mem_descriptorJoinRows (ds : List Nat)
    (sdRows : List StudyDescriptorRow) (P : Nat × StudyDescriptorRow → Prop) :
    (∃ r ∈ descriptorJoinRows ds sdRows, P r) ↔
      ∃ dd ∈ ds, ∃ row ∈ sdRows, row.descriptor_id = dd ∧ P (dd, row) := by
  unfold descriptorJoinRows
  constructor
  · rintro ⟨r, hr, hP⟩
    obtain ⟨dd, hdd, hmap⟩ := List.mem_flatMap.mp hr
    obtain ⟨row, hrow, hre⟩ := List.mem_map.mp hmap
    rw [List.mem_filter] at hrow
    subst hre
    exact ⟨dd, hdd, row, hrow.1, of_decide_eq_true hrow.2, hP⟩
  · rintro ⟨dd, hdd, row, hrow, hdid, hP⟩
    refine ⟨(dd, row),
      List.mem_flatMap.mpr ⟨dd, hdd, List.mem_map.mpr ⟨row, ?_, rfl⟩⟩, hP⟩
    rw [List.mem_filter]
    exact ⟨hrow, decide_eq_true hdid⟩

theorem exists_mem_dStepIds (study_ids : List Nat)
    (rows : List (Nat × StudyDescriptorRow))
    (P : Nat × StudyDescriptorRow → Prop) :
    (∃ r ∈ dStepIds study_ids rows, P r) ↔
      ∃ r ∈ rows, P r ∧
        (truthyL study_ids = true →
          study_ids.contains r.2.study_id = true) := by
  unfold dStepIds
  exact exists_mem_ite_filter _ _ _ _

theorem exists_mem_dStepType (mtt : Option String)
    (rows : List (Nat × StudyDescriptorRow))
    (P : Nat × StudyDescriptorRow → Prop) :
    (∃ r ∈ dStepType mtt rows, P r) ↔
      ∃ r ∈ rows, P r ∧
        (truthyS mtt = true → r.2.study_descriptor_type = mtt.getD "") := by
  unfold dStepType
  refine Iff.trans (exists_mem_ite_filter _ _ _ _) ?_
  constructor
  · rintro ⟨r, hr, hP, hq⟩
    exact ⟨r, hr, hP, fun h => of_decide_eq_true (hq h)⟩
  · rintro ⟨r, hr, hP, hq⟩
    exact ⟨r, hr, hP, fun h => decide_eq_true (hq h)⟩

theorem descriptorGroup_toFinset (ds : List Nat)
    (sdRows : List StudyDescriptorRow) (study_ids : List Nat)
    (mtt : Option String) (d : Nat) :
    (((descriptorAggRows ds sdRows study_ids mtt).filter (fun r => r.1 = d)).map
        (fun r => r.2.study_id)).toFinset =
      ((sdRows.filter (fun row =>
          row.descriptor_id == d && ds.contains d &&
          (!truthyL study_ids || study_ids.contains row.study_id) &&
          (!truthyS mtt ||
            row.study_descriptor_type == mtt.getD ""))).map
        (fun row => row.study_id)).toFinset := by
  have key : ∀ a : Nat, (∃ r ∈ descriptorAggRows ds sdRows study_ids mtt,
      r.1 = d ∧ r.2.study_id = a) ↔
      ∃ row ∈ sdRows, row.descriptor_id = d ∧ ds.contains d = true ∧
        (truthyL study_ids = true →
          study_ids.contains row.study_id = true) ∧
        (truthyS mtt = true → row.study_descriptor_type = mtt.getD "") ∧
        row.study_id = a := by
    intro a
    unfold descriptorAggRows
    refine Iff.trans (exists_mem_dStepType _ _ _) ?_
    refine Iff.trans (exists_mem_dStepIds _ _ _) ?_
    refine Iff.trans (exists_mem_descriptorJoinRows _ _ _) ?_
    constructor
    · rintro ⟨dd, hdd, row, hrow, hdid, ⟨⟨hd, hsid⟩, hmtt⟩, hids⟩
      have hd2 : dd = d := hd
      subst hd2
      exact ⟨row, hrow, hdid, List.elem_iff.mpr hdd, hids, hmtt, hsid⟩
    · rintro ⟨row, hrow, hdid, hds, hids, hmtt, hsid⟩
      exact ⟨d, List.elem_iff.mp hds, row, hrow, hdid,
        ⟨⟨rfl, hsid⟩, hmtt⟩, hids⟩
  ext a
  rw [List.mem_toFinset, List.mem_toFinset, List.mem_map, List.mem_map]
  constructor
  · rintro ⟨r, hrf, ha⟩
    rw [List.mem_filter] at hrf
    obtain ⟨row, hrow, hdid, hds, hids, hmtt, hsid⟩ :=
      (key a).mp ⟨r, hrf.1, of_decide_eq_true hrf.2, ha⟩
    refine ⟨row, ?_, hsid⟩
    rw [List.mem_filter]
    refine ⟨hrow, ?_⟩
    simp only [Bool.and_eq_true_iff, bnot_or_eq_true, beq_iff_eq,
      decide_eq_true_eq]
    exact ⟨⟨⟨hdid, hds⟩, hids⟩, hmtt⟩
  · rintro ⟨row, hrowf, hsid⟩
    rw [List.mem_filter] at hrowf
    obtain ⟨hrow, hbool⟩ := hrowf
    simp only [Bool.and_eq_true_iff, bnot_or_eq_true, beq_iff_eq,
      decide_eq_true_eq] at hbool
    obtain ⟨⟨⟨hdid, hds⟩, hids⟩, hmtt⟩ := hbool
    obtain ⟨r, hrm, hr1, hr2⟩ :=
      (key a).mpr ⟨row, hrow, hdid, hds, hids, hmtt, hsid⟩
    refine ⟨r, ?_, hr2⟩
    rw [List.mem_filter]
    exact ⟨hrm, decide_eq_true hr1⟩

theorem mem_resolveCountStudiesByDescriptor_sorted (ds : List Nat)
    (sdRows : List StudyDescriptorRow) (study_ids : List Nat)
    (mtt : Option String) (limit : Option Nat) (x : Nat × Nat)
    (h : x ∈ resolveCountStudiesByDescriptor ds sdRows study_ids mtt limit) :
    x ∈ sortDescByCount (aggCountsByDescriptor
      (descriptorAggRows ds sdRows study_ids mtt)) := by
  cases limit with
  | none =>
    simp only [resolveCountStudiesByDescriptor] at h
    exact h
  | some l =>
    simp only [resolveCountStudiesByDescriptor] at h
    by_cases hz : l ≠ 0
    · rw [if_pos hz] at h
      exact List.take_subset _ _ h
    · rw [if_neg hz] at h
      exact h

theorem mem_aggCountsByDescriptor (rows : List (Nat × StudyDescriptorRow))
    (d n : Nat) (h : (d, n) ∈ aggCountsByDescriptor rows) :
    n = ((rows.filter (fun r => r.1 = d)).map
      (fun r => r.2.study_id)).dedup.length := by
  unfold aggCountsByDescriptor at h
  obtain ⟨d2, -, heq⟩ := List.mem_map.mp h
  rw [Prod.mk.injEq] at heq
  obtain ⟨h1, h2⟩ := heq
  subst h1
  exact h2.symm

/-- C7: every aggregation reports per group the count of DISTINCT study
identifiers, never a raw join-row count: (a) a row of the by-country
aggregation counts the distinct study ids having a facility in that
country (a study with three facilities adds 1 to each reached country
group, never 3 to one); (b) a row of the by-facility aggregation counts
the distinct study ids reaching that canonical facility's group through
the study–facility join and the resolver's filters (a study joined to 3
facilities contributes exactly 1 to each of the 3 facility groups, not 3
to one group); (c) a row of the by-descriptor aggregation counts the
distinct study ids among the matching study-descriptor association rows;
and (d) the count resolver returns the cardinality of the set of
distinct study ids among the matched rows. -/
theorem aggregation_counts_distinct :
    (∀ (db : List StudyRec) (study_ids : List Nat) (limit : Option Nat)
        (c : Option String) (n : Nat),
      (c, n) ∈ resolveCountStudiesByCountry db study_ids limit →
      n = ((db.filter (fun s =>
          (!truthyL study_ids || study_ids.contains s.study_id) &&
          s.facilities_canonical.any (fun f => f.country == c))).map
            (fun s => s.study_id)).toFinset.card) ∧
    (∀ (db : List StudyRec) (p : CountStudiesByFacilityParams)
        (distFn : Int × Int → Int × Int → Int) (fac : FacilityRec) (n : Nat),
      (fac, n) ∈ resolveCountStudiesByFacility db p distFn →
      n = ((db.filter (fun s =>
          p.study_ids.contains s.study_id &&
          (!truthyL p.overall_statuses ||
            p.overall_statuses.contains s.overall_status) &&
          (!truthyL p.mesh_descriptor_ids ||
            s.descriptors.any p.mesh_descriptor_ids.contains) &&
          s.facilities_canonical.any (fun f =>
            f.facility_canonical_id == fac.facility_canonical_id &&
            (!truthyL p.cities || optTest f.locality p.cities.contains) &&
            (!truthyL p.states ||
              optTest f.administrative_area_level_1 p.states.contains) &&
            (!truthyL p.countries || optTest f.country p.countries.contains) &&
            (!(truthyI p.current_location_longitude &&
                truthyI p.current_location_latitude &&
                truthyI p.distance_max_km) ||
              distFn (p.current_location_longitude.getD 0,
                      p.current_location_latitude.getD 0) f.coordinates ≤
                p.distance_max_km.getD 0 * 1000)))).map
            (fun s => s.study_id)).toFinset.card) ∧
    (∀ (ds : List Nat) (sdRows : List StudyDescriptorRow)
        (study_ids : List Nat) (mesh_term_type : Option String)
        (limit : Option Nat) (d n : Nat),
      (d, n) ∈ resolveCountStudiesByDescriptor ds sdRows study_ids
          mesh_term_type limit →
      n = ((sdRows.filter (fun row =>
          row.descriptor_id == d && ds.contains d &&
          (!truthyL study_ids || study_ids.contains row.study_id) &&
          (!truthyS mesh_term_type ||
            row.study_descriptor_type == mesh_term_type.getD ""))).map
            (fun row => row.study_id)).toFinset.card) ∧
    (∀ (db : List StudyRec) (p : QueryFilterParams)
        (distFn : Int × Int → Int × Int → Int) (rows : List QRow),
      applyQueryFilters db p distFn = Except.ok rows →
      resolveCount db p distFn =
        Except.ok (((rows.map (fun r => r.s.study_id)).toFinset.card : Int))) := by
  refine ⟨?_, ?_, ?_, ?_⟩
  · intro db study_ids limit c n hmem
    have hsorted : (c, n) ∈
        sortDescByCount (aggCountsByCountry (countryRows db study_ids)) := by
      cases limit with
      | none =>
        simp only [resolveCountStudiesByCountry] at hmem
        exact hmem
      | some l =>
        simp only [resolveCountStudiesByCountry] at hmem
        by_cases hz : l ≠ 0
        · rw [if_pos hz] at hmem
          exact List.take_subset _ _ hmem
        · rw [if_neg hz] at hmem
          exact hmem
    rw [mem_sortDescByCount] at hsorted
    unfold aggCountsByCountry at hsorted
    obtain ⟨c2, -, he⟩ := List.mem_map.mp hsorted
    rw [Prod.mk.injEq] at he
    obtain ⟨rfl, rfl⟩ := he
    rw [← countryRows_fst_toFinset db study_ids c2, List.card_toFinset]
  · intro db p distFn fac n hmem
    have h1 := mem_resolveCountStudiesByFacility_sorted db p distFn (fac, n) hmem
    rw [mem_sortDescByCount] at h1
    rw [mem_aggCountsByFacility _ fac n h1, ← List.card_toFinset,
      facilityGroup_toFinset]
  · intro ds sdRows study_ids mesh_term_type limit d n hmem
    have h1 := mem_resolveCountStudiesByDescriptor_sorted ds sdRows study_ids
      mesh_term_type limit (d, n) hmem
    rw [mem_sortDescByCount] at h1
    rw [mem_aggCountsByDescriptor _ d n h1, ← List.card_toFinset,
      descriptorGroup_toFinset]
  · intro db p distFn rows h
    unfold resolveCount
    rw [h]
    show Except.ok (countFromResult (countQueryOneOrNone rows)) = _
    unfold countFromResult countQueryOneOrNone countDistinctStudyIds
    rw [List.card_toFinset]

/-- C7 (witness): the three-facility study (facilities `1` and `2` in the
US, facility `3` in Germany) contributes exactly 1 to the `"US"` country
group (not 2, although two of its facilities are in the US), exactly 1 to
the group of facility `1` (one of the 3 facility groups its 3 join rows
reach), exactly 1 to the group of descriptor `7`, and the count resolver
counts it once. -/
theorem aggregation_counts_distinct_witness :
    ((1 : Nat) = (([studyThreeFacilities].filter (fun s =>
        (!truthyL ([] : List Nat) || ([] : List Nat).contains s.study_id) &&
        s.facilities_canonical.any (fun f => f.country == some "US"))).map
          (fun s => s.study_id)).toFinset.card) ∧
    ((1 : Nat) = (([studyThreeFacilities].filter (fun s =>
        facilityParamsW.study_ids.contains s.study_id &&
        (!truthyL facilityParamsW.overall_statuses ||
          facilityParamsW.overall_statuses.contains s.overall_status) &&
        (!truthyL facilityParamsW.mesh_descriptor_ids ||
          s.descriptors.any facilityParamsW.mesh_descriptor_ids.contains) &&
        s.facilities_canonical.any (fun f =>
          f.facility_canonical_id == facilityOneUS.facility_canonical_id &&
          (!truthyL facilityParamsW.cities ||
            optTest f.locality facilityParamsW.cities.contains) &&
          (!truthyL facilityParamsW.states ||
            optTest f.administrative_area_level_1
              facilityParamsW.states.contains) &&
          (!truthyL facilityParamsW.countries ||
            optTest f.country facilityParamsW.countries.contains) &&
          (!(truthyI facilityParamsW.current_location_longitude &&
              truthyI facilityParamsW.current_location_latitude &&
              truthyI facilityParamsW.distance_max_km) ||
            distZero (facilityParamsW.current_location_longitude.getD 0,
                      facilityParamsW.current_location_latitude.getD 0)
                f.coordinates ≤
              facilityParamsW.distance_max_km.getD 0 * 1000)))).map
          (fun s => s.study_id)).toFinset.card) ∧
    ((1 : Nat) = (([sdRowW].filter (fun row =>
        row.descriptor_id == 7 && ([7] : List Nat).contains 7 &&
        (!truthyL ([] : List Nat) || ([] : List Nat).contains row.study_id) &&
        (!truthyS (none : Option String) ||
          row.study_descriptor_type == (none : Option String).getD ""))).map
          (fun row => row.study_id)).toFinset.card) ∧
    (resolveCount [studyThreeFacilities] noFilters distZero =
      Except.ok ((([(⟨studyThreeFacilities, none, none, none⟩ : QRow)].map
        (fun r => r.s.study_id)).toFinset.card : Int))) := by
  exact ⟨aggregation_counts_distinct.1 [studyThreeFacilities] [] none
      (some "US") 1 (by decide),
    aggregation_counts_distinct.2.1 [studyThreeFacilities] facilityParamsW
      distZero facilityOneUS 1 (by decide),
    aggregation_counts_distinct.2.2.1 [7] [sdRowW] [] none none 7 1 (by decide),
    aggregation_counts_distinct.2.2.2 [studyThreeFacilities] noFilters distZero
      [⟨studyThreeFacilities, none, none, none⟩] rfl⟩


/-! ## Row-origin lemmas for the filter pipeline (C6, C10) -/

theorem except_bind_ok {α β : Type} (x : Except String α) (f : α → Except String β)
    (b : β) : (x >>= f) = Except.ok b ↔ ∃ a, x = Except.ok a ∧ f a = Except.ok b := by
  cases x with
  | error e => simp [Bind.bind, Except.bind]
  | ok a => simp [Bind.bind, Except.bind]

theorem stepLocation_subset (p : QueryFilterParams) (rows : List QRow) (r : QRow)
    (hr : r ∈ stepLocation p rows) : r ∈ rows := by
  unfold stepLocation at hr
  split_ifs at hr <;>
    repeat first
      | exact hr
      | exact (List.mem_filter.mp hr).1
      | replace hr := (List.mem_filter.mp hr).1

theorem stepGeo_subset (p : QueryFilterParams)
    (distFn : Int × Int → Int × Int → Int) (rows : List QRow) (r : QRow)
    (hr : r ∈ stepGeo p distFn rows) : r ∈ rows := by
  unfold stepGeo at hr
  split_ifs at hr
  · exact (List.mem_filter.mp hr).1
  · exact hr

theorem stepPhases_subset (p : QueryFilterParams) (rows : List QRow) (r : QRow)
    (hr : r ∈ stepPhases p rows) : r ∈ rows := by
  unfold stepPhases at hr
  split_ifs at hr
  · exact (List.mem_filter.mp hr).1
  · exact hr

theorem stepStudyTypes_subset (p : QueryFilterParams) (rows : List QRow) (r : QRow)
    (hr : r ∈ stepStudyTypes p rows) : r ∈ rows := by
  unfold stepStudyTypes at hr
  split_ifs at hr
  · exact (List.mem_filter.mp hr).1
  · exact hr

theorem stepGender_subset (p : QueryFilterParams) (rows : List QRow) (r : QRow)
    (hr : r ∈ stepGender p rows) : r ∈ rows := by
  unfold stepGender at hr
  split at hr
  · exact hr
  · split_ifs at hr <;>
      first
        | exact hr
        | exact (List.mem_filter.mp hr).1

theorem stepInterventions_srcFac (p : QueryFilterParams) (rows : List QRow)
    (r : QRow) (hr : r ∈ stepInterventions p rows) :
    ∃ r0 ∈ rows, r.s = r0.s ∧ r.fac = r0.fac := by
  unfold stepInterventions at hr
  split_ifs at hr
  · obtain ⟨hr2, -⟩ := List.mem_filter.mp hr
    obtain ⟨r0, hr0, hr3⟩ := List.mem_flatMap.mp hr2
    obtain ⟨i, -, rfl⟩ := List.mem_map.mp hr3
    exact ⟨r0, hr0, rfl, rfl⟩
  · exact ⟨r, hr, rfl, rfl⟩

theorem stepEligibilityJoin_srcFac (p : QueryFilterParams) (rows : List QRow)
    (r : QRow) (hr : r ∈ stepEligibilityJoin p rows) :
    ∃ r0 ∈ rows, r.s = r0.s ∧ r.fac = r0.fac := by
  unfold stepEligibilityJoin at hr
  split_ifs at hr
  · obtain ⟨r0, hr0, hr2⟩ := List.mem_flatMap.mp hr
    cases he : r0.s.eligibility with
    | some e =>
      rw [he] at hr2
      rcases List.mem_singleton.mp hr2 with rfl
      exact ⟨r0, hr0, rfl, rfl⟩
    | none =>
      rw [he] at hr2
      simp at hr2
  · exact ⟨r, hr, rfl, rfl⟩

theorem yearBegFilter_subset {ρ : Type} (sd : ρ → Option (Int × Int × Int))
    (yb : Option Int) (rows out : List ρ)
    (h : yearBegFilter sd yb rows = Except.ok out) : ∀ r ∈ out, r ∈ rows := by
  unfold yearBegFilter at h
  cases yb with
  | none =>
    cases h
    exact fun r hr => hr
  | some y =>
    simp only [] at h
    split_ifs at h
    · cases hpd : pyDate y 1 1 with
      | error e => rw [hpd] at h; cases h
      | ok d =>
        rw [hpd] at h
        cases h
        exact fun r hr => (List.mem_filter.mp hr).1
    · cases h
      exact fun r hr => hr

theorem yearEndFilter_subset {ρ : Type} (sd : ρ → Option (Int × Int × Int))
    (ye : Option Int) (rows out : List ρ)
    (h : yearEndFilter sd ye rows = Except.ok out) : ∀ r ∈ out, r ∈ rows := by
  unfold yearEndFilter at h
  cases ye with
  | none =>
    cases h
    exact fun r hr => hr
  | some y =>
    simp only [] at h
    split_ifs at h
    · cases hpd : pyDate y 12 31 with
      | error e => rw [hpd] at h; cases h
      | ok d =>
        rw [hpd] at h
        cases h
        exact fun r hr => (List.mem_filter.mp hr).1
    · cases h
      exact fun r hr => hr

theorem stepYears_subset (p : QueryFilterParams) (rows out : List QRow)
    (h : stepYears p rows = Except.ok out) : ∀ r ∈ out, r ∈ rows := by
  unfold stepYears at h
  cases hb : yearBegFilter (fun r => r.s.start_date) p.year_beg rows with
  | error e => rw [hb] at h; cases h
  | ok rows2 =>
    rw [hb] at h
    intro r hr
    exact yearBegFilter_subset _ _ rows rows2 hb r
      (yearEndFilter_subset _ _ rows2 out h r hr)

theorem agesFilter_subset {ρ : Type} (el : ρ → Option EligibilityRec)
    (ab ae : Option Int) (rows out : List ρ)
    (h : agesFilter el ab ae rows = Except.ok out) : ∀ r ∈ out, r ∈ rows := by
  unfold agesFilter at h
  split_ifs at h
  · cases h1 : pyMulYearSeconds ab with
    | error e => rw [h1] at h; cases h
    | ok a =>
      rw [h1] at h
      cases h2 : pyMulYearSeconds ae with
      | error e => rw [h2] at h; cases h
      | ok b =>
        rw [h2] at h
        cases h
        exact fun r hr => (List.mem_filter.mp hr).1
  · cases h
    exact fun r hr => hr

theorem stepAges_subset (p : QueryFilterParams) (rows out : List QRow)
    (h : stepAges p rows = Except.ok out) : ∀ r ∈ out, r ∈ rows :=
  agesFilter_subset _ _ _ rows out h

theorem applyQueryFilters_row_origin (db : List StudyRec) (p : QueryFilterParams)
    (distFn : Int × Int → Int × Int → Int) (rows : List QRow)
    (h : applyQueryFilters db p distFn = Except.ok rows) :
    ∀ r ∈ rows,
      ∃ r5 ∈ stepGeo p distFn (stepLocation p (stepFacilityJoin p (stepStatuses p
        (stepStudyIds p (db.map (fun s => ⟨s, none, none, none⟩)))))),
        r.s = r5.s ∧ r.fac = r5.fac := by
  intro r hr
  simp only [applyQueryFilters] at h
  rw [except_bind_ok] at h
  obtain ⟨mid, hyears, hages⟩ := h
  have h1 : r ∈ mid := stepAges_subset p mid rows hages r hr
  have h2 := stepYears_subset p _ mid hyears r h1
  have h3 := stepGender_subset p _ r h2
  obtain ⟨r8, hr8, hs8, hf8⟩ := stepEligibilityJoin_srcFac p _ r h3
  have h4 := stepStudyTypes_subset p _ r8 hr8
  have h5 := stepPhases_subset p _ r8 h4
  obtain ⟨r5, hr5, hs5, hf5⟩ := stepInterventions_srcFac p _ r8 h5
  exact ⟨r5, hr5, hs8.trans hs5, hf8.trans hf5⟩


/-! ## The geospatial filter condition (C6) -/

/-- C6 (amended): the geospatial distance filter is applied iff longitude,
latitude and maximum distance are all supplied AND truthy (non-zero, per
Python truthiness): if any of the three is absent or zero, the query is
identical to one with no geo parameters at all; when all three are truthy,
every returned row's facility lies within the maximum distance of the
supplied point. -/
theorem geo_filter_truthy_semantics (db : List StudyRec) (p : QueryFilterParams)
    (distFn : Int × Int → Int × Int → Int) :
    (geoFilterCond p = false →
      applyQueryFilters db p distFn =
        applyQueryFilters db
          { p with current_location_longitude := none,
                   current_location_latitude := none,
                   distance_max_km := none } distFn) ∧
    (geoFilterCond p = true → ∀ rows, applyQueryFilters db p distFn = Except.ok rows →
      ∀ r ∈ rows, optTest r.fac (fun f =>
        distFn (p.current_location_longitude.getD 0,
            p.current_location_latitude.getD 0) f.coordinates ≤
          p.distance_max_km.getD 0 * 1000) = true) := by
  constructor
  · intro h
    have hfj : facilityJoinCond p =
        facilityJoinCond
          { p with current_location_longitude := none,
                   current_location_latitude := none, distance_max_km := none } := by
      unfold facilityJoinCond
      unfold geoFilterCond at h
      rw [h]
      rfl
    have hsf : stepFacilityJoin p =
        stepFacilityJoin
          { p with current_location_longitude := none,
                   current_location_latitude := none, distance_max_km := none } := by
      funext rows
      unfold stepFacilityJoin
      rw [hfj]
    have hsg : stepGeo p distFn =
        stepGeo
          { p with current_location_longitude := none,
                   current_location_latitude := none, distance_max_km := none }
          distFn := by
      funext rows
      unfold stepGeo
      rw [h]
      rfl
    simp only [applyQueryFilters]
    rw [hsf, hsg]
    rfl
  · intro hc rows h r hr
    obtain ⟨r5, hr5, hs5, hf5⟩ := applyQueryFilters_row_origin db p distFn rows h r hr
    rw [hf5]
    simp only [stepGeo] at hr5
    split_ifs at hr5
    exact (List.mem_filter.mp hr5).2

/-- C6 (counterexample): with longitude, latitude and maximum distance ALL
supplied — longitude `0`, the Greenwich meridian — the distance filter is
not applied: a study whose only facility is a billion meters away is
still returned, because Python truthiness treats the zero coordinate the
same as an absent one. -/
theorem geo_zero_longitude_not_filtered :
    paramsGeoZeroLon.current_location_longitude.isSome = true ∧
    paramsGeoZeroLon.current_location_latitude.isSome = true ∧
    paramsGeoZeroLon.distance_max_km.isSome = true ∧
    applyQueryFilters [studyOne] paramsGeoZeroLon distFar =
      Except.ok [⟨studyOne, none, none, none⟩] ∧
    distFar (0, 1) (50, 50) > paramsGeoZeroLon.distance_max_km.getD 0 * 1000 := by
  exact ⟨rfl, rfl, rfl, rfl, by decide⟩

/-- C6 (witness for the amended theorem). -/
theorem geo_filter_truthy_semantics_witness :
    (applyQueryFilters [studyOne] paramsGeoZeroLon distFar =
      applyQueryFilters [studyOne]
        { paramsGeoZeroLon with current_location_longitude := none,
                                current_location_latitude := none,
                                distance_max_km := none } distFar) ∧
    (∀ r ∈ [rowOneUS], optTest r.fac (fun f =>
      distZero (3, 1) f.coordinates ≤ (1 : Int) * 1000) = true) := by
  exact ⟨(geo_filter_truthy_semantics [studyOne] paramsGeoZeroLon distFar).1 rfl,
    (geo_filter_truthy_semantics [studyOne] paramsGeoSmall distZero).2 rfl
      [rowOneUS] rfl⟩

/-! ## The canonical-facility fix filter (C10) -/

/-- C10 (amended): whenever a location-parameter list is non-empty or the
geospatial triple is fully truthy (the join condition of
`studies.py:379-386`), every row of the composed query carries a canonical
facility of its own study that passes the fallback fix-filter, so a study
all of whose facilities are fallback records (name equal to one of their
six area fields after NULL-coalescing) contributes no row and is silently
dropped. -/
theorem facility_fix_filter_excludes_fallback (db : List StudyRec)
    (p : QueryFilterParams) (distFn : Int × Int → Int × Int → Int)
    (rows : List QRow) (hc : facilityJoinCond p = true)
    (h : applyQueryFilters db p distFn = Except.ok rows) :
    ∀ r ∈ rows, (∃ f, r.fac = some f ∧ f ∈ r.s.facilities_canonical ∧
        canonicalFacilityFixOk f = true) ∧
      ¬(∀ f ∈ r.s.facilities_canonical, canonicalFacilityFixOk f = false) := by
  intro r hr
  obtain ⟨r5, hr5, hs5, hf5⟩ := applyQueryFilters_row_origin db p distFn rows h r hr
  have hr4 := stepGeo_subset p distFn _ r5 hr5
  have hr3 := stepLocation_subset p _ r5 hr4
  unfold stepFacilityJoin at hr3
  split_ifs at hr3
  obtain ⟨hmem, hfix⟩ := List.mem_filter.mp hr3
  obtain ⟨r0, hr0, hmap⟩ := List.mem_flatMap.mp hmem
  obtain ⟨f, hf, rfl⟩ := List.mem_map.mp hmap
  have hfex : ∃ f2, r.fac = some f2 ∧ f2 ∈ r.s.facilities_canonical ∧
      canonicalFacilityFixOk f2 = true := by
    refine ⟨f, ?_, ?_, ?_⟩
    · rw [hf5]
    · rw [hs5]
      exact hf
    · simpa using hfix
  refine ⟨hfex, ?_⟩
  intro hall
  obtain ⟨f2, -, hf2, hfx⟩ := hfex
  rw [hall f2 hf2] at hfx
  exact Bool.false_ne_true hfx

/-- C10 (counterexample): a complete geospatial filter is present (all
three parameters supplied) but with a zero longitude, and the study whose
only canonical facility is a fallback record (name = country) is NOT
excluded — the fix-filter only triggers on the code's truthiness-based
join condition. -/
theorem complete_geo_keeps_fallback_only_study :
    paramsGeoZeroLon.current_location_longitude.isSome = true ∧
    paramsGeoZeroLon.current_location_latitude.isSome = true ∧
    paramsGeoZeroLon.distance_max_km.isSome = true ∧
    (studyFallbackOnly.facilities_canonical.all
      (fun f => !canonicalFacilityFixOk f)) = true ∧
    applyQueryFilters [studyFallbackOnly] paramsGeoZeroLon distZero =
      Except.ok [⟨studyFallbackOnly, none, none, none⟩] := by
  exact ⟨rfl, rfl, rfl, by decide, rfl⟩

/-- C10 (witness for the amended theorem). -/
theorem facility_fix_filter_excludes_fallback_witness :
    (∃ f, rowOneUS.fac = some f ∧ f ∈ rowOneUS.s.facilities_canonical ∧
        canonicalFacilityFixOk f = true) ∧
      ¬(∀ f ∈ rowOneUS.s.facilities_canonical, canonicalFacilityFixOk f = false) := by
  exact facility_fix_filter_excludes_fallback [studyOne] paramsCountriesUS distZero
    [rowOneUS] rfl rfl rowOneUS (List.mem_singleton.mpr rfl)


/-! ## The projection planner on relations without sub-fields (C4) -/

theorem lookupList_isSome_of_key (m : List (String × OrmInspect)) (k : String)
    (h : ((m.map (fun e => e.1)).contains k) = true) :
    ∃ v, lookupList m k = some v := by
  induction m with
  | nil => simp at h
  | cons e rest ih =>
    obtain ⟨a, b⟩ := e
    by_cases hk : a = k
    · exact ⟨b, by simp only [lookupList]; rw [if_pos hk]⟩
    · have h2 : k ∈ a :: rest.map (fun e => e.1) := by simpa using h
      rcases List.mem_cons.mp h2 with rfl | h3
      · exact absurd rfl hk
      · obtain ⟨v, hv⟩ := ih (by simpa using h3)
        exact ⟨v, by simp only [lookupList]; rw [if_neg hk]; exact hv⟩

/-- C4 (counterexample): a relation requested with NO sub-fields —
`extract_requested_fields` maps it to Python `None` — makes the planner
raise `AttributeError` at `fields_all.keys()` inside
`_get_load_only_fields`, instead of producing a nested identity-only plan:
the planner is not total. -/
theorem relation_without_subfields_raises :
    getQueryOptions (FieldsDict.node [("locations", FieldsDict.leaf)]) inspStudy none =
      Except.error "AttributeError: NoneType object has no attribute keys" := by
  simp [getQueryOptions, gqoRels, getLoadOnlyFields, inspStudy, inspLocation,
    OrmInspect.relKeys, OrmInspect.relationships, OrmInspect.columns, lookupList,
    bind, Except.bind]

/-- C4 (amended): the planner never raises on requested-field trees whose
relation-named entries all carry sub-field dicts (recursively), and a
relation requested with an EMPTY sub-field dict yields a nested plan
whose load-only column list is empty — only the identity column, supplied
by `load_only` itself; but a relation requested with `None` sub-fields
(no selection set) raises `AttributeError`. -/
theorem planner_total_on_dict_trees :
    (∀ (fields : FieldsDict) (insp : OrmInspect) (opt : Option (List LoadStep)),
      plannerSafe fields insp = true →
      ∃ out, getQueryOptions fields insp opt = Except.ok out) ∧
    getQueryOptions (FieldsDict.node [("locations", FieldsDict.node [])])
        inspStudy none =
      Except.ok [[LoadStep.loadOnly [], LoadStep.joinedLoad "locations",
        LoadStep.loadOnly []]] := by
  constructor
  · intro fields insp opt
    refine getQueryOptions.induct
      (fun f i o => plannerSafe f i = true →
        ∃ out, getQueryOptions f i o = Except.ok out)
      (fun l i b => plannerSafeList l i = true →
        ∃ out, gqoRels l i b = Except.ok out)
      ?_ ?_ ?_ ?_ ?_ ?_ ?_ fields insp opt
    · intro i o h
      simp [plannerSafe] at h
    · intro i o a hall _h
      exact ⟨_, by simp only [getQueryOptions]; rw [if_pos hall]⟩
    · intro i o a
      intro base hne ih h
      simp only [plannerSafe] at h
      obtain ⟨out, hout⟩ := ih h
      exact ⟨out, by simp only [getQueryOptions]; rw [if_neg hne]; exact hout⟩
    · intro i b _h
      exact ⟨[], by simp only [gqoRels]⟩
    · intro i b e rest hcont hlook _h
      obtain ⟨v, hv⟩ := lookupList_isSome_of_key i.relationships e.1 hcont
      rw [hlook] at hv
      cases hv
    · intro i b e rest hcont irel hlook ih1 ih2 h
      simp only [plannerSafeList] at h
      rw [hlook] at h
      obtain ⟨h1, h2⟩ := Bool.and_eq_true_iff.mp h
      cases he2 : e.2 with
      | leaf =>
        rw [he2] at h1
        simp [plannerSafe] at h1
      | node entries =>
        have hglo : getLoadOnlyFields e.2 irel =
            Except.ok ((entries.map (fun x => x.1)).filter
              (fun k => irel.columns.contains k)) := by
          rw [he2]
          rfl
        obtain ⟨here, hhere⟩ := ih1 ((entries.map (fun x => x.1)).filter
          (fun k => irel.columns.contains k)) h1
        obtain ⟨more, hmore⟩ := ih2 h2
        refine ⟨here ++ more, ?_⟩
        simp only [gqoRels, hcont, if_true, hlook, hglo, bind, Except.bind,
          hhere, hmore, pure, Except.pure]
    · intro i b e rest hncont ih h
      simp only [plannerSafeList] at h
      obtain ⟨-, h2⟩ := Bool.and_eq_true_iff.mp h
      obtain ⟨out, hout⟩ := ih h2
      exact ⟨out, by simp only [gqoRels]; rw [if_neg hncont]; exact hout⟩
  · simp [getQueryOptions, gqoRels, getLoadOnlyFields, inspStudy, inspLocation,
      OrmInspect.relKeys, OrmInspect.relationships, OrmInspect.columns, lookupList,
      bind, Except.bind, pure, Except.pure]

/-- C4 (witness for the amended theorem): end-to-end Scenario 1 of the
spec is a safe tree, and the planner succeeds on it. -/
theorem planner_total_on_dict_trees_witness :
    ∃ out, getQueryOptions
      (FieldsDict.node [("study_id", FieldsDict.leaf),
        ("locations", FieldsDict.node [("facility",
          FieldsDict.node [("name", FieldsDict.leaf)])])]) inspStudy none =
      Except.ok out := by
  exact planner_total_on_dict_trees.1
    (FieldsDict.node [("study_id", FieldsDict.leaf),
      ("locations", FieldsDict.node [("facility",
        FieldsDict.node [("name", FieldsDict.leaf)])])]) inspStudy none
    (by simp [plannerSafe, plannerSafeList, inspStudy, inspLocation,
      OrmInspect.relationships, lookupList])


end FFGraphql
